import Mathlib

/-!
Verification development for a two-pass assembler for a 14-bit-word machine.

The definitions below are a shallow embedding of the C sources:

* `src/Assembler/src/middle_end/second_pass/second_pass.c` and
  `second_pass_utilities.c` (operand encoding, ARE bits, extern records);
* `src/Assembler/src/front_end/first_pass/first_pass.c` and
  `first_pass_utility.c` (symbol table construction, IC/DC accounting,
  `.data` handling, instruction sizes, legality of addressings);
* `src/Assembler/src/utilities/tables_dictionaries_utility.c` (opcode tables);
* `src/Assembler/src/back_end/file_generation/file_generation.c`
  (object / entries / externals file contents).

C `unsigned int` values are modelled as `Nat` reduced modulo `2 ^ 32`
(the function `u32`), C `int` values as `Int`, C strings as `String` or
`List Char` (for the character-level scanners), and C growable arrays as
`List`.  Memory allocation is modelled as infallible: in the C program an
allocation failure terminates the process, so no other behaviour depends
on it.
-/

namespace Assembler

/-! ### ASCII character classification (models `ctype.h` on ASCII input) -/

/-- Model of C `isspace` on ASCII characters. -/
def isspace (c : Char) : Bool :=
  c = ' ' || c = '\t' || c = '\n' || c = '\x0b' || c = '\x0c' || c = '\r'

/-- Model of C `isdigit` on ASCII characters. -/
def isdigit (c : Char) : Bool :=
  48 ≤ c.toNat && c.toNat ≤ 57

/-- Model of C `isalpha` on ASCII characters. -/
def isalpha (c : Char) : Bool :=
  (65 ≤ c.toNat && c.toNat ≤ 90) || (97 ≤ c.toNat && c.toNat ≤ 122)

/-- Model of C `isalnum` on ASCII characters. -/
def isalnum (c : Char) : Bool :=
  isdigit c || isalpha c

/-! ### Core enumerations (from `include/globals.h` and
`include/opcode_definitions.h`) -/

/-- The `AddressingType` enum: immediate (0), direct (1), fixed index (2),
direct register (3), and the `NONE_ADDR` sentinel (-1). -/
inductive AddressingType
  | IMMEDIATE_ADDR
  | DIRECT_ADDR
  | FIXED_IDX_ADDR
  | DIRECT_REGISTER_ADDR
  | NONE_ADDR
deriving DecidableEq, Repr, Fintype

/-- Numeric value of an `AddressingType` as used when building the first
machine word (the sentinel is mapped to 0 there by the encoder itself). -/
def AddressingType.fieldVal : AddressingType → Nat
  | .IMMEDIATE_ADDR => 0
  | .DIRECT_ADDR => 1
  | .FIXED_IDX_ADDR => 2
  | .DIRECT_REGISTER_ADDR => 3
  | .NONE_ADDR => 0

/-- The `Opcode` enum (the 16 real opcodes; the C `NONE_OP = -1` sentinel is
modelled by `Option Opcode` at use sites). -/
inductive Opcode
  | MOV_OP | CMP_OP | ADD_OP | SUB_OP | NOT_OP | CLR_OP | LEA_OP | INC_OP
  | DEC_OP | JMP_OP | BNE_OP | RED_OP | PRN_OP | JSR_OP | RTS_OP | HLT_OP
deriving DecidableEq, Repr, Fintype

/-- The numeric value of each opcode, as fixed in `opcode_definitions.h`. -/
def Opcode.val : Opcode → Nat
  | .MOV_OP => 0 | .CMP_OP => 1 | .ADD_OP => 2 | .SUB_OP => 3
  | .NOT_OP => 4 | .CLR_OP => 5 | .LEA_OP => 6 | .INC_OP => 7
  | .DEC_OP => 8 | .JMP_OP => 9 | .BNE_OP => 10 | .RED_OP => 11
  | .PRN_OP => 12 | .JSR_OP => 13 | .RTS_OP => 14 | .HLT_OP => 15

/-- The `ARE` enum: `ABSOLUTE = 0`, `EXTERNAL = 1`, `RELOCATABLE = 2`. -/
inductive ARE
  | ABSOLUTE
  | EXTERNAL
  | RELOCATABLE
deriving DecidableEq, Repr

/-- Numeric value of the `ARE` enum. -/
def ARE.val : ARE → Nat
  | .ABSOLUTE => 0
  | .EXTERNAL => 1
  | .RELOCATABLE => 2

/-- The `SymbolType` enum from `globals.h`. -/
inductive SymbolType
  | CODE_LABEL | DATA_LABEL | TEMP_ENTRY_LABEL | EXTERN_LABEL
  | ENTRY_CODE_LABEL | ENTRY_DATA_LABEL | DEFINED_CONSTANT
deriving DecidableEq, Repr

/-- The `Symbol` struct: name (at most 31 characters are stored), kind
and address. -/
structure Symbol where
  symbolName : String
  symbolType : SymbolType
  address : Int
deriving DecidableEq, Repr

/-- The `ExternalSymbolInfo` struct: one record per extern use site. -/
structure ExternalSymbolInfo where
  externalName : String
  addresses : Int
deriving DecidableEq, Repr

/-- The `ConstantDefinitionInstruction` struct (also the element type of the
translation unit's constants list). -/
structure ConstantDefinitionInstruction where
  constName : String
  constValue : Int
deriving DecidableEq, Repr

/-- The `TranslationUnit` struct.  Growable arrays become lists; the counts
(`IC`, `DC`, `symCount`, ...) that are not redundant with list lengths are
kept as fields (`IC` and `DC`), the others are the list lengths. -/
structure TranslationUnit where
  codeImage : List Nat
  IC : Nat
  dataImage : List Nat
  DC : Nat
  symbolTable : List Symbol
  externalsList : List ExternalSymbolInfo
  entryList : List Symbol
  constantList : List ConstantDefinitionInstruction
deriving DecidableEq, Repr

/-- A translation unit as initialized by `translation_unit_initialization`:
all arrays empty, counters zero. -/
def emptyTranslationUnit : TranslationUnit :=
  { codeImage := [], IC := 0, dataImage := [], DC := 0, symbolTable := [],
    externalsList := [], entryList := [], constantList := [] }

/-- Conversion of a C `int` value to `unsigned int` (reduction modulo
`2 ^ 32`), used wherever the source assigns an `int` into an
`unsigned int` object. -/
def u32 (i : Int) : Nat :=
  (i % 4294967296).toNat

/-! ### Operand payloads (the C `Operand` union and its member structs) -/

/-- The `ImmediateAddressing` struct: the value is either stored as an
integer (`constantVal` NULL or empty in C) or as a constant name. -/
inductive ImmediateAddressing
  | integerVal (v : Int)
  | constantVal (name : String)
deriving DecidableEq, Repr

/-- Index payload of `FixedIndexAddressing`: exactly one of
`numericalAddressingIndex` and `constantAddressingIndex` is stored. -/
inductive FixedIndexValue
  | numerical (n : Int)
  | constant (name : String)
deriving DecidableEq, Repr

/-- The `FixedIndexAddressing` struct. -/
structure FixedIndexAddressing where
  labelName : String
  index : FixedIndexValue
deriving DecidableEq, Repr

/-- The `Operand` union, as a sum type.  Reading a member other than the one
stored (which well-formed descriptors never do) yields the fixed defaults of
the projections below. -/
inductive Operand
  | immediate (i : ImmediateAddressing)
  | label (s : String)
  | fixedIndex (f : FixedIndexAddressing)
  | register (r : Nat)
deriving DecidableEq, Repr

/-- Union read `operand.immediateValue`. -/
def Operand.immediateValue : Operand → ImmediateAddressing
  | .immediate i => i
  | _ => .integerVal 0

/-- Union read `operand.addressingLabel`. -/
def Operand.addressingLabel : Operand → String
  | .label s => s
  | _ => ""

/-- Union read `operand.fixedIndexOperand`. -/
def Operand.fixedIndexOperand : Operand → FixedIndexAddressing
  | .fixedIndex f => f
  | _ => ⟨"", .numerical 0⟩

/-- Union read `operand.reg`. -/
def Operand.reg : Operand → Nat
  | .register r => r
  | _ => 0

/-- The operand role selector used throughout the encoders. -/
inductive OperandType
  | SOURCE_OPERAND
  | TARGET_OPERAND
deriving DecidableEq, Repr

/-- The `CommandInstruction` struct. -/
structure CommandInstruction where
  opcodeCommand : Opcode
  numOfOperands : Nat
  sourceOperand : Operand
  targetOperand : Operand
  sourceOperandAddressingType : AddressingType
  targetOperandAddressingType : AddressingType
deriving DecidableEq, Repr

/-! ### Second pass (`second_pass_utilities.c`, `second_pass.c`)

The encoders return the C functions' error flag (`true` = error) together
with the updated translation unit.  `code_generation_error_handling` only
prints a diagnostic, so it has no counterpart in the state. -/

/-- Function `insert_machine_word`: append a machine word to the code image
and advance `IC`.  The `unsigned int` parameter truncates the word to 32
bits; resizing is modelled as infallible. -/
def insert_machine_word (trUnit : TranslationUnit) (machineWord : Nat) :
    TranslationUnit :=
  { trUnit with
      codeImage := trUnit.codeImage ++ [machineWord % 4294967296]
      IC := trUnit.IC + 1 }

/-- Function `extract_constant`: look the name up in the constants list
(first match wins). -/
def extract_constant (constName : String) (transUnit : TranslationUnit) :
    Option Int :=
  (transUnit.constantList.find? (fun c => c.constName == constName)).map
    (·.constValue)

/-- Function `two_complement_validation`: `value` must fit a 12-bit two's
complement field. -/
def two_complement_validation (value : Int) : Bool :=
  !(value < -2048 || value > 2047)

/-- Function `updateExternTable`: append an extern-use record holding the
current `IC`. -/
def updateExternTable (trUnit : TranslationUnit) (labelName : String) :
    TranslationUnit :=
  { trUnit with
      externalsList :=
        trUnit.externalsList ++ [⟨labelName, (trUnit.IC : Int)⟩] }

/-- Function `find_label_addressing`: look the label up in the symbol table;
on success yield the address to encode (0 for externs) and the ARE kind, and
record an extern use when the symbol is an `EXTERN_LABEL`. -/
def find_label_addressing (labelName : String)
    (translationUnit : TranslationUnit) :
    Option (Nat × ARE) × TranslationUnit :=
  match translationUnit.symbolTable.find?
      (fun s => s.symbolName == labelName) with
  | none => (none, translationUnit)
  | some s =>
      let theAddress : Nat :=
        if s.symbolType = .EXTERN_LABEL then 0 else u32 s.address
      let whichARE : ARE :=
        if s.symbolType = .EXTERN_LABEL then .EXTERNAL else .RELOCATABLE
      let translationUnit' :=
        if s.symbolType = .EXTERN_LABEL then
          updateExternTable translationUnit labelName
        else translationUnit
      (some (theAddress, whichARE), translationUnit')

/-- Function `get_addressing_index`: a numerical index is used as stored
(converted to `unsigned int`); a constant index must be a defined constant
with a nonnegative value. -/
def get_addressing_index (fixedIdxOperand : FixedIndexAddressing)
    (translationUnit : TranslationUnit) : Option Nat :=
  match fixedIdxOperand.index with
  | .numerical n => some (u32 n)
  | .constant c =>
      match extract_constant c translationUnit with
      | none => none
      | some tempIndex =>
          if tempIndex < 0 then none else some (u32 tempIndex)

/-- Function `firs_machine_word_encoding`: the opcode word
`[13..10] zeros, [9..6] opcode, [5..4] src mode, [3..2] tgt mode, [1..0] 00`;
an absent operand contributes a zero field. -/
def firs_machine_word_encoding (commandInst : CommandInstruction)
    (transUnit : TranslationUnit) : TranslationUnit :=
  let srcOperand : Nat :=
    if commandInst.sourceOperandAddressingType = .NONE_ADDR then 0
    else commandInst.sourceOperandAddressingType.fieldVal
  let tgtOperand : Nat :=
    if commandInst.targetOperandAddressingType = .NONE_ADDR then 0
    else commandInst.targetOperandAddressingType.fieldVal
  let firstWord : Nat :=
    (commandInst.opcodeCommand.val <<< 6) ||| (srcOperand <<< 4) |||
      (tgtOperand <<< 2)
  insert_machine_word transUnit firstWord

/-- Function `double_direct_register_encoding`: the shared register word for
a two-register instruction. -/
def double_direct_register_encoding (commandInst : CommandInstruction)
    (transUnit : TranslationUnit) : TranslationUnit :=
  let machineWord : Nat :=
    (commandInst.sourceOperand.reg <<< 5) |||
      (commandInst.targetOperand.reg <<< 2)
  insert_machine_word transUnit machineWord

/-- Function `encode_immediate_addressing`.  Returns `true` on error
(undefined constant or 12-bit overflow); otherwise appends
`valueToEncode << 2`. -/
def encode_immediate_addressing (immAddressing : ImmediateAddressing)
    (transUnit : TranslationUnit) : Bool × TranslationUnit :=
  let valueToEncode? : Option Int :=
    match immAddressing with
    | .integerVal v => some v
    | .constantVal name => extract_constant name transUnit
  match valueToEncode? with
  | none => (true, transUnit)
  | some valueToEncode =>
      if two_complement_validation valueToEncode then
        (false, insert_machine_word transUnit (u32 (valueToEncode * 4)))
      else
        (true, transUnit)

/-- Function `encode_direct_addressing`.  Returns `true` when the label is
unknown; otherwise appends `(labelAddress << 2) | ARE`. -/
def encode_direct_addressing (labelName : String)
    (transUnit : TranslationUnit) : Bool × TranslationUnit :=
  match find_label_addressing labelName transUnit with
  | (none, transUnit') => (true, transUnit')
  | (some (labelAddress, theARE), transUnit') =>
      let machineWord : Nat :=
        (labelAddress <<< 2) ||| (theARE.val &&& 3)
      (false, insert_machine_word transUnit' machineWord)

/-- Function `encode_fixed_index_addressing`.  The label is resolved first
(recording an extern use when it is extern), then the index; on any failure
the error flag is returned with no word appended. -/
def encode_fixed_index_addressing (fixedAddressing : FixedIndexAddressing)
    (transUnit : TranslationUnit) : Bool × TranslationUnit :=
  match find_label_addressing fixedAddressing.labelName transUnit with
  | (none, transUnit1) => (true, transUnit1)
  | (some (labelAddress, firstARE), transUnit1) =>
      match get_addressing_index fixedAddressing transUnit1 with
      | none => (true, transUnit1)
      | some addressingIndex =>
          let firstMachineWord : Nat :=
            (labelAddress <<< 2) ||| (firstARE.val &&& 3)
          let secondMachineWord : Nat :=
            (addressingIndex <<< 2) ||| (ARE.ABSOLUTE.val &&& 3)
          (false,
            insert_machine_word
              (insert_machine_word transUnit1 firstMachineWord)
              secondMachineWord)

/-- Function `encode_direct_register_addressing`: bits 5-7 for a source
register, bits 2-4 for a target register. -/
def encode_direct_register_addressing (reg : Nat)
    (translationUnit : TranslationUnit) (opType : OperandType) :
    TranslationUnit :=
  insert_machine_word translationUnit
    (reg <<< (if opType = .SOURCE_OPERAND then 5 else 2))

/-- Function `process_operand_encoding`: dispatch one operand to its
encoder.  Register operands and absent operands never fail. -/
def process_operand_encoding (commandInst : CommandInstruction)
    (transUnit : TranslationUnit) (addrType : AddressingType)
    (opType : OperandType) : Bool × TranslationUnit :=
  match addrType with
  | .NONE_ADDR => (false, transUnit)
  | .IMMEDIATE_ADDR =>
      if opType = .SOURCE_OPERAND then
        encode_immediate_addressing commandInst.sourceOperand.immediateValue
          transUnit
      else
        encode_immediate_addressing commandInst.targetOperand.immediateValue
          transUnit
  | .DIRECT_ADDR =>
      if opType = .SOURCE_OPERAND then
        encode_direct_addressing commandInst.sourceOperand.addressingLabel
          transUnit
      else
        encode_direct_addressing commandInst.targetOperand.addressingLabel
          transUnit
  | .FIXED_IDX_ADDR =>
      if opType = .SOURCE_OPERAND then
        encode_fixed_index_addressing
          commandInst.sourceOperand.fixedIndexOperand transUnit
      else
        encode_fixed_index_addressing
          commandInst.targetOperand.fixedIndexOperand transUnit
  | .DIRECT_REGISTER_ADDR =>
      if opType = .SOURCE_OPERAND then
        (false, encode_direct_register_addressing
          commandInst.sourceOperand.reg transUnit .SOURCE_OPERAND)
      else
        (false, encode_direct_register_addressing
          commandInst.targetOperand.reg transUnit .TARGET_OPERAND)

/-- One command line of the second pass loop: encode the opcode word, then
either the shared register word (both operands direct-register) or the
source operand followed by the target operand. -/
def second_pass_command (commandInst : CommandInstruction)
    (translationUnit : TranslationUnit) : Bool × TranslationUnit :=
  let tu1 := firs_machine_word_encoding commandInst translationUnit
  if commandInst.sourceOperandAddressingType = .DIRECT_REGISTER_ADDR ∧
      commandInst.targetOperandAddressingType = .DIRECT_REGISTER_ADDR then
    (false, double_direct_register_encoding commandInst tu1)
  else
    let (e1, tu2) := process_operand_encoding commandInst tu1
      commandInst.sourceOperandAddressingType .SOURCE_OPERAND
    let (e2, tu3) := process_operand_encoding commandInst tu2
      commandInst.targetOperandAddressingType .TARGET_OPERAND
    (e1 || e2, tu3)

/-! ### Abstract line descriptors and the second pass over a program -/

/-- Content of an `AbstractLineDescriptor` (the C `LineType` discriminant
together with the payload of the corresponding union member; `.entry` and
`.extern` lines carry their referenced name). -/
inductive LineContent
  | initVal
  | empty
  | comment
  | constantDef (constName : String) (constValue : Int)
  | directiveData (data : List Int)
  | directiveString (data : String)
  | directiveEntry (entryName : String)
  | directiveExtern (externName : String)
  | command (commandInst : CommandInstruction)
deriving DecidableEq, Repr

/-- The `AbstractLineDescriptor` struct: an optional first error, an optional
label prefix, and the line's classified content (`initVal` is the
`INIT_VAL = -1` line type set by `line_descriptor_initialization`). -/
structure AbstractLineDescriptor where
  lineError : Option String
  labelName : Option String
  content : LineContent
deriving DecidableEq, Repr

/-- Function `second_pass`: walk the program, encoding each command line and
skipping every other line.  Mirrors the C return value (`true` = no error in
the whole program). -/
def second_pass (lines : List AbstractLineDescriptor)
    (translationUnit : TranslationUnit) : Bool × TranslationUnit :=
  match lines with
  | [] => (true, translationUnit)
  | l :: rest =>
      match l.content with
      | .command commandInst =>
          let (err, tu') := second_pass_command commandInst translationUnit
          let (ok, tu'') := second_pass rest tu'
          (!err && ok, tu'')
      | _ => second_pass rest translationUnit

/-! ### Opcode tables (`tables_dictionaries_utility.c`) and command legality -/

/-- The `OpcodeAddressing` struct of `addressing_analysis.h`: the allowed
addressing modes of both operand positions (arrays of size
`NUMBER_OF_ADDRESSING = 4`, zero-filled, so missing initializers read as
`IMMEDIATE_ADDR`). -/
structure OpcodeAddressing where
  operationName : String
  sourceOperand : List AddressingType
  destinationOperand : List AddressingType
deriving DecidableEq, Repr

/-- The table `opcodeAddressingDict` with C's zero-filling of the
4-element arrays made explicit. -/
def opcodeAddressingDict : List OpcodeAddressing :=
  [ ⟨"mov", [.IMMEDIATE_ADDR, .DIRECT_ADDR, .FIXED_IDX_ADDR, .DIRECT_REGISTER_ADDR],
      [.DIRECT_ADDR, .FIXED_IDX_ADDR, .DIRECT_REGISTER_ADDR, .IMMEDIATE_ADDR]⟩,
    ⟨"cmp", [.IMMEDIATE_ADDR, .DIRECT_ADDR, .FIXED_IDX_ADDR, .DIRECT_REGISTER_ADDR],
      [.IMMEDIATE_ADDR, .DIRECT_ADDR, .FIXED_IDX_ADDR, .DIRECT_REGISTER_ADDR]⟩,
    ⟨"add", [.IMMEDIATE_ADDR, .DIRECT_ADDR, .FIXED_IDX_ADDR, .DIRECT_REGISTER_ADDR],
      [.DIRECT_ADDR, .FIXED_IDX_ADDR, .DIRECT_REGISTER_ADDR, .IMMEDIATE_ADDR]⟩,
    ⟨"sub", [.IMMEDIATE_ADDR, .DIRECT_ADDR, .FIXED_IDX_ADDR, .DIRECT_REGISTER_ADDR],
      [.DIRECT_ADDR, .FIXED_IDX_ADDR, .DIRECT_REGISTER_ADDR, .IMMEDIATE_ADDR]⟩,
    ⟨"not", [.NONE_ADDR, .IMMEDIATE_ADDR, .IMMEDIATE_ADDR, .IMMEDIATE_ADDR],
      [.DIRECT_ADDR, .FIXED_IDX_ADDR, .DIRECT_REGISTER_ADDR, .IMMEDIATE_ADDR]⟩,
    ⟨"clr", [.NONE_ADDR, .IMMEDIATE_ADDR, .IMMEDIATE_ADDR, .IMMEDIATE_ADDR],
      [.DIRECT_ADDR, .FIXED_IDX_ADDR, .DIRECT_REGISTER_ADDR, .IMMEDIATE_ADDR]⟩,
    ⟨"lea", [.DIRECT_ADDR, .FIXED_IDX_ADDR, .IMMEDIATE_ADDR, .IMMEDIATE_ADDR],
      [.DIRECT_ADDR, .FIXED_IDX_ADDR, .DIRECT_REGISTER_ADDR, .IMMEDIATE_ADDR]⟩,
    ⟨"inc", [.NONE_ADDR, .IMMEDIATE_ADDR, .IMMEDIATE_ADDR, .IMMEDIATE_ADDR],
      [.DIRECT_ADDR, .FIXED_IDX_ADDR, .DIRECT_REGISTER_ADDR, .IMMEDIATE_ADDR]⟩,
    ⟨"dec", [.NONE_ADDR, .IMMEDIATE_ADDR, .IMMEDIATE_ADDR, .IMMEDIATE_ADDR],
      [.DIRECT_ADDR, .FIXED_IDX_ADDR, .DIRECT_REGISTER_ADDR, .IMMEDIATE_ADDR]⟩,
    ⟨"jmp", [.NONE_ADDR, .IMMEDIATE_ADDR, .IMMEDIATE_ADDR, .IMMEDIATE_ADDR],
      [.DIRECT_ADDR, .DIRECT_REGISTER_ADDR, .IMMEDIATE_ADDR, .IMMEDIATE_ADDR]⟩,
    ⟨"bne", [.NONE_ADDR, .IMMEDIATE_ADDR, .IMMEDIATE_ADDR, .IMMEDIATE_ADDR],
      [.DIRECT_ADDR, .DIRECT_REGISTER_ADDR, .IMMEDIATE_ADDR, .IMMEDIATE_ADDR]⟩,
    ⟨"red", [.NONE_ADDR, .IMMEDIATE_ADDR, .IMMEDIATE_ADDR, .IMMEDIATE_ADDR],
      [.DIRECT_ADDR, .FIXED_IDX_ADDR, .DIRECT_REGISTER_ADDR, .IMMEDIATE_ADDR]⟩,
    ⟨"prn", [.NONE_ADDR, .IMMEDIATE_ADDR, .IMMEDIATE_ADDR, .IMMEDIATE_ADDR],
      [.IMMEDIATE_ADDR, .DIRECT_ADDR, .FIXED_IDX_ADDR, .DIRECT_REGISTER_ADDR]⟩,
    ⟨"jsr", [.NONE_ADDR, .IMMEDIATE_ADDR, .IMMEDIATE_ADDR, .IMMEDIATE_ADDR],
      [.DIRECT_ADDR, .DIRECT_REGISTER_ADDR, .IMMEDIATE_ADDR, .IMMEDIATE_ADDR]⟩,
    ⟨"rts", [.NONE_ADDR, .IMMEDIATE_ADDR, .IMMEDIATE_ADDR, .IMMEDIATE_ADDR],
      [.NONE_ADDR, .IMMEDIATE_ADDR, .IMMEDIATE_ADDR, .IMMEDIATE_ADDR]⟩,
    ⟨"hlt", [.NONE_ADDR, .IMMEDIATE_ADDR, .IMMEDIATE_ADDR, .IMMEDIATE_ADDR],
      [.NONE_ADDR, .IMMEDIATE_ADDR, .IMMEDIATE_ADDR, .IMMEDIATE_ADDR]⟩ ]

/-- The table `opcodeDictionary` (the final `NONE_OP` entry is never read by
the loops, which are bounded by `NUMBER_OF_OPCODES = 16`; it is modelled by
the `none` result of lookups). -/
def opcodeDictionary : List (Opcode × String) :=
  [ (.MOV_OP, "mov"), (.CMP_OP, "cmp"), (.ADD_OP, "add"), (.SUB_OP, "sub"),
    (.NOT_OP, "not"), (.CLR_OP, "clr"), (.LEA_OP, "lea"), (.INC_OP, "inc"),
    (.DEC_OP, "dec"), (.JMP_OP, "jmp"), (.BNE_OP, "bne"), (.RED_OP, "red"),
    (.PRN_OP, "prn"), (.JSR_OP, "jsr"), (.RTS_OP, "rts"), (.HLT_OP, "hlt") ]

/-- The table `addressingModesDict`: for each opcode (in enum order) the
number of valid addressing modes of the source and target positions. -/
def addressingModesDict : List (Nat × Nat) :=
  [ (4, 3), (4, 4), (4, 3), (4, 3), (0, 3), (0, 3), (2, 3), (0, 3),
    (0, 3), (0, 2), (0, 2), (0, 3), (0, 4), (0, 2), (0, 0), (0, 0) ]

/-- Function `opcode_num_of_mods`: index `addressingModesDict` by the opcode
enum value. -/
def opcode_num_of_mods (opcode : Opcode) (operandType : OperandType) : Nat :=
  let entry := addressingModesDict.getD opcode.val (0, 0)
  if operandType = .SOURCE_OPERAND then entry.1 else entry.2

/-- Function `is_legal_command`: scan `opcodeDictionary` for the command's
opcode; at a match, a C `do`-`while` checks the addressing of each operand
against the first `max mods 1` entries of the corresponding
`opcodeAddressingDict` array (a `do`-`while` body runs at least once, so a
0-mod operand position is compared against the array's `NONE_ADDR` head). -/
def is_legal_command (lineCommand : CommandInstruction) : Bool :=
  let sourceMods := opcode_num_of_mods lineCommand.opcodeCommand .SOURCE_OPERAND
  let targetMods := opcode_num_of_mods lineCommand.opcodeCommand .TARGET_OPERAND
  let isValidSource :=
    (List.range 16).any fun i =>
      (opcodeDictionary.getD i (.MOV_OP, "")).1 = lineCommand.opcodeCommand &&
        ((List.range (max sourceMods 1)).any fun j =>
          (opcodeAddressingDict.getD i ⟨"", [], []⟩).sourceOperand.getD j
              .IMMEDIATE_ADDR =
            lineCommand.sourceOperandAddressingType)
  let isValidTarget :=
    (List.range 16).any fun i =>
      (opcodeDictionary.getD i (.MOV_OP, "")).1 = lineCommand.opcodeCommand &&
        ((List.range (max targetMods 1)).any fun j =>
          (opcodeAddressingDict.getD i ⟨"", [], []⟩).destinationOperand.getD j
              .IMMEDIATE_ADDR =
            lineCommand.targetOperandAddressingType)
  isValidSource && isValidTarget

/-- Function `ic_promoter`: the number of machine words an instruction
occupies.  Two direct-register operands share one extra word; otherwise the
loop adds 1 word for an immediate, direct or register operand and 2 for a
fixed-index operand. -/
def ic_promoter (lineCommand : CommandInstruction) : Nat :=
  if lineCommand.sourceOperandAddressingType = .DIRECT_REGISTER_ADDR ∧
      lineCommand.targetOperandAddressingType = .DIRECT_REGISTER_ADDR then
    2
  else
    let add : AddressingType → Nat := fun tempAddressing =>
      (if tempAddressing = .IMMEDIATE_ADDR then 1 else 0) +
      (if tempAddressing = .DIRECT_ADDR then 1 else 0) +
      (if tempAddressing = .FIXED_IDX_ADDR then 2 else 0) +
      (if tempAddressing = .DIRECT_REGISTER_ADDR then 1 else 0)
    1 + add lineCommand.sourceOperandAddressingType +
      add lineCommand.targetOperandAddressingType

/-! ### First pass (`first_pass.c`, `first_pass_utility.c`)

The first pass walks the already-built line descriptors, maintaining the
local counters `ic` (initially `IC_INIT_VALUE = 100`) and `dc` (initially 0)
besides the shared translation unit. -/

/-- Union read of the constant-definition name of a line. -/
def LineContent.constDefName : LineContent → String
  | .constantDef n _ => n
  | _ => ""

/-- Union read of the constant-definition value of a line. -/
def LineContent.constDefValue : LineContent → Int
  | .constantDef _ v => v
  | _ => 0

/-- Union read of the `.entry` / `.extern` referenced name of a line (the
two union members alias the same pointer in C). -/
def LineContent.entryName : LineContent → String
  | .directiveEntry n => n
  | .directiveExtern n => n
  | _ => ""

/-- Function `find_symbol`: first symbol with the given name, if any. -/
def find_symbol (labelName : String) (symbolTable : List Symbol) :
    Option Symbol :=
  symbolTable.find? (fun s => s.symbolName == labelName)

/-- Update the first symbol with the given name (the C code mutates the
symbol through the pointer returned by `find_symbol`). -/
def update_first_symbol (symbolTable : List Symbol) (labelName : String)
    (f : Symbol → Symbol) : List Symbol :=
  match symbolTable with
  | [] => []
  | s :: rest =>
      if s.symbolName == labelName then f s :: rest
      else s :: update_first_symbol rest labelName f

/-- Function `insert_symbol_to_table`.  A `CODE_LABEL`/`DATA_LABEL` takes
the line's label name and the current `ic`/`dc`; a constant takes its value
as address; a `TEMP_ENTRY_LABEL` takes address -1; an `EXTERN_LABEL` stores
the current `ic` in its address field.  `strncpy` keeps at most
`MAX_SYMBOL_LENGTH = 31` characters.  Any other symbol kind leaves the
table unchanged (the C function has no branch for it). -/
def insert_symbol_to_table (lineDescriptor : AbstractLineDescriptor)
    (translationUnit : TranslationUnit) (ic dc : Nat)
    (typeOfSymbol : SymbolType) : TranslationUnit :=
  let push (s : Symbol) : TranslationUnit :=
    { translationUnit with symbolTable := translationUnit.symbolTable ++ [s] }
  if typeOfSymbol = .CODE_LABEL ∨ typeOfSymbol = .DATA_LABEL then
    push ⟨(lineDescriptor.labelName.getD "").take 31, typeOfSymbol,
      if typeOfSymbol = .CODE_LABEL then (ic : Int) else (dc : Int)⟩
  else if typeOfSymbol = .DEFINED_CONSTANT then
    push ⟨lineDescriptor.content.constDefName.take 31, .DEFINED_CONSTANT,
      lineDescriptor.content.constDefValue⟩
  else if typeOfSymbol = .TEMP_ENTRY_LABEL then
    push ⟨lineDescriptor.content.entryName.take 31, .TEMP_ENTRY_LABEL, -1⟩
  else if typeOfSymbol = .EXTERN_LABEL then
    push ⟨lineDescriptor.content.entryName.take 31, .EXTERN_LABEL, (ic : Int)⟩
  else
    translationUnit

/-- Function `handle_label`: a label prefix either promotes a matching
`TEMP_ENTRY_LABEL`, is a redefinition error, or is inserted as a new
code/data label; labels on other line kinds are dropped silently.
Returns `true` on error. -/
def handle_label (lineDescriptor : AbstractLineDescriptor)
    (translationUnit : TranslationUnit) (ic dc : Nat) :
    Bool × TranslationUnit :=
  let name := lineDescriptor.labelName.getD ""
  match find_symbol name translationUnit.symbolTable with
  | some labelFinder =>
      if labelFinder.symbolType = .TEMP_ENTRY_LABEL then
        match lineDescriptor.content with
        | .command _ =>
            (false, { translationUnit with
              symbolTable := update_first_symbol translationUnit.symbolTable
                name (fun s =>
                  { s with symbolType := .ENTRY_CODE_LABEL,
                           address := (ic : Int) }) })
        | .directiveData _ | .directiveString _ =>
            (false, { translationUnit with
              symbolTable := update_first_symbol translationUnit.symbolTable
                name (fun s =>
                  { s with symbolType := .ENTRY_DATA_LABEL,
                           address := (dc : Int) }) })
        | _ => (false, translationUnit)
      else
        (true, translationUnit)
  | none =>
      match lineDescriptor.content with
      | .directiveData _ | .directiveString _ =>
          (false,
            insert_symbol_to_table lineDescriptor translationUnit ic dc
              .DATA_LABEL)
      | .command _ =>
          (false,
            insert_symbol_to_table lineDescriptor translationUnit ic dc
              .CODE_LABEL)
      | _ => (false, translationUnit)

/-- Function `int_data_image_update`: append each `.data` element, converted
to `unsigned int`, to the data image; advance the data counter. -/
def int_data_image_update (data : List Int)
    (translationUnit : TranslationUnit) (dc : Nat) : TranslationUnit × Nat :=
  let dc' := dc + data.length
  ({ translationUnit with
      dataImage := translationUnit.dataImage ++ data.map u32
      DC := dc' }, dc')

/-- Function `string_data_image_update`: append the character values of the
string followed by the 0 terminator; advance the data counter by
`length + 1`. -/
def string_data_image_update (data : String)
    (translationUnit : TranslationUnit) (dc : Nat) : TranslationUnit × Nat :=
  let words := data.toList.map Char.toNat ++ [0]
  let dc' := dc + words.length
  ({ translationUnit with
      dataImage := translationUnit.dataImage ++ words
      DC := dc' }, dc')

/-- Function `handle_data_image`: dispatch `.data` / `.string` lines to the
image updaters; other lines are rejected by the input validation check. -/
def handle_data_image (lineDescriptor : AbstractLineDescriptor)
    (translationUnit : TranslationUnit) (dc : Nat) : TranslationUnit × Nat :=
  match lineDescriptor.content with
  | .directiveData data => int_data_image_update data translationUnit dc
  | .directiveString s => string_data_image_update s translationUnit dc
  | _ => (translationUnit, dc)

/-- The loop state of `first_pass`. -/
structure FirstPassState where
  translationUnit : TranslationUnit
  ic : Nat
  dc : Nat
  errorFlag : Bool
deriving Repr

/-- The portion of the `first_pass` loop body that runs after the label
prefix was handled: constant definitions, command legality and `IC`
promotion, data image updates, and `.entry` / `.extern` bookkeeping. -/
def first_pass_after_label (lineDescriptor : AbstractLineDescriptor)
    (st : FirstPassState) : FirstPassState :=
  match lineDescriptor.content with
  | .constantDef constName _ =>
      match find_symbol constName st.translationUnit.symbolTable with
      | some _ => { st with errorFlag := true }
      | none =>
          { st with
              translationUnit := insert_symbol_to_table lineDescriptor
                st.translationUnit st.ic st.dc .DEFINED_CONSTANT }
  | .command commandInst =>
      if !is_legal_command commandInst then
        { st with errorFlag := true }
      else
        { st with ic := st.ic + ic_promoter commandInst }
  | .directiveData _ | .directiveString _ =>
      let (tu', dc') :=
        handle_data_image lineDescriptor st.translationUnit st.dc
      { st with translationUnit := tu', dc := dc' }
  | .directiveEntry entryName =>
      match find_symbol entryName st.translationUnit.symbolTable with
      | some labelFinder =>
          if labelFinder.symbolType = .CODE_LABEL then
            { st with
                translationUnit := { st.translationUnit with
                  symbolTable := update_first_symbol
                    st.translationUnit.symbolTable entryName
                    (fun s => { s with symbolType := .ENTRY_CODE_LABEL }) } }
          else if labelFinder.symbolType = .DATA_LABEL then
            { st with
                translationUnit := { st.translationUnit with
                  symbolTable := update_first_symbol
                    st.translationUnit.symbolTable entryName
                    (fun s => { s with symbolType := .ENTRY_DATA_LABEL }) } }
          else
            { st with errorFlag := true }
      | none =>
          { st with
              translationUnit := insert_symbol_to_table lineDescriptor
                st.translationUnit st.ic st.dc .TEMP_ENTRY_LABEL }
  | .directiveExtern _ =>
      match find_symbol lineDescriptor.content.entryName
          st.translationUnit.symbolTable with
      | some _ => { st with errorFlag := true }
      | none =>
          { st with
              translationUnit := insert_symbol_to_table lineDescriptor
                st.translationUnit st.ic st.dc .EXTERN_LABEL }
  | _ => st

/-- One iteration of the `first_pass` loop over a built line descriptor:
skip errored/empty/comment lines, handle a label prefix, then process the
line's content. -/
def first_pass_line (lineDescriptor : AbstractLineDescriptor)
    (st : FirstPassState) : FirstPassState :=
  if (lineDescriptor.lineError.getD "") ≠ "" then
    { st with errorFlag := true }
  else
    match lineDescriptor.content with
    | .empty => st
    | .comment => st
    | _ =>
        if (lineDescriptor.labelName.getD "") ≠ "" then
          let (labelErr, tu') :=
            handle_label lineDescriptor st.translationUnit st.ic st.dc
          if labelErr then
            { st with translationUnit := tu', errorFlag := true }
          else
            first_pass_after_label lineDescriptor
              { st with translationUnit := tu' }
        else
          first_pass_after_label lineDescriptor st

/-- Function `sort_entries` (a `qsort` by ascending address). -/
def sort_entries (entryList : List Symbol) : List Symbol :=
  entryList.mergeSort (fun a b => decide (a.address ≤ b.address))

/-- The per-symbol sweep of `process_symbol_table`: flag undefined entries,
offset data labels by the final `ic`, and collect entry labels (after the
offset) in table order.  Returns the rewritten table, the collected entry
list and the error flag. -/
def process_symbols (symbolTable : List Symbol) (ic : Nat) :
    List Symbol × List Symbol × Bool :=
  match symbolTable with
  | [] => ([], [], false)
  | s :: rest =>
      let err1 := s.symbolType = .TEMP_ENTRY_LABEL
      let s' :=
        if s.symbolType = .DATA_LABEL ∨ s.symbolType = .ENTRY_DATA_LABEL then
          { s with address := s.address + (ic : Int) }
        else s
      let ent :=
        if s.symbolType = .ENTRY_CODE_LABEL ∨
            s.symbolType = .ENTRY_DATA_LABEL then
          [s']
        else []
      let (tbl, ents, err) := process_symbols rest ic
      (s' :: tbl, ent ++ ents, err1 || err)

/-- Function `process_symbol_table`: run the sweep, then sort the entry
list by address when it has at least two elements. -/
def process_symbol_table (translationUnit : TranslationUnit) (ic : Nat) :
    Bool × TranslationUnit :=
  let (tbl, ents, err) := process_symbols translationUnit.symbolTable ic
  let entryList := translationUnit.entryList ++ ents
  let entryList' :=
    if entryList.length > 1 then sort_entries entryList else entryList
  (err,
    { translationUnit with symbolTable := tbl, entryList := entryList' })

/-- Function `first_pass` over built line descriptors: fold the loop body
from `ic = 100`, `dc = 0`, then apply the guarded `IC` decrement and
`process_symbol_table`.  Returns `true` when the pass saw no error. -/
def first_pass (lines : List AbstractLineDescriptor)
    (translationUnit : TranslationUnit) : Bool × TranslationUnit :=
  let st := lines.foldl (fun st ld => first_pass_line ld st)
    ⟨translationUnit, 100, 0, false⟩
  let tu1 :=
    if st.translationUnit.IC > 0 then
      { st.translationUnit with IC := st.translationUnit.IC - 1 }
    else st.translationUnit
  let (perr, tu2) := process_symbol_table tu1 st.ic
  (!(st.errorFlag || perr), tu2)

/-! ### Character-level scanners (`utilities.c`, `utilities.h` macros, and
the `.data` scanning functions of `first_pass_utility.c`)

C strings are modelled as `List Char` of the characters before the
terminating `'\0'`; "the current pointer" becomes the remaining suffix. -/

/-- The macro `MOVE_TO_NON_WHITE`: skip `'\t'` and `' '` only. -/
def moveToNonWhite : List Char → List Char
  | [] => []
  | c :: cs => if c = '\t' ∨ c = ' ' then moveToNonWhite cs else c :: cs

/-- A C `while (isspace(*p)) p++;` loop. -/
def skipIsspace : List Char → List Char
  | [] => []
  | c :: cs => if isspace c then skipIsspace cs else c :: cs

/-- The macro `MOVE_TO_NEXT_WORD`: skip whitespace, then skip one word. -/
def moveToNextWord (ptr : List Char) : List Char :=
  (skipIsspace ptr).dropWhile (fun c => !isspace c)

/-- The macro `MOVE_TO_NEXT_DATA`: skip one leading `'-'`, then skip
alphanumeric characters. -/
def moveToNextData (ptr : List Char) : List Char :=
  let ptr1 := match ptr with
    | '-' :: cs => cs
    | _ => ptr
  ptr1.dropWhile (fun c => isalnum c)

/-- Digit-accumulation loop `result = result * 10 + (str[i] - '0')`,
returning the value read and the rest of the string. -/
def readDigits : List Char → Int → Int × List Char
  | [], result => (result, [])
  | c :: cs, result =>
      if isdigit c then readDigits cs (result * 10 + ((c.toNat : Int) - 48))
      else (result, c :: cs)

/-- Function `extract_first_word`: the first whitespace-delimited word. -/
def extract_first_word (line : List Char) : List Char :=
  (skipIsspace line).takeWhile (fun c => !isspace c)

/-- Function `extract_token_until_comma`: skip whitespace, take the span of
characters outside `", \t\n"`, then skip whitespace; returns the token and
the moved pointer. -/
def extract_token_until_comma (str : List Char) : List Char × List Char :=
  let str1 := skipIsspace str
  let token := str1.takeWhile
    (fun c => !(c = ',' ∨ c = ' ' ∨ c = '\t' ∨ c = '\n'))
  (token, skipIsspace (str1.drop token.length))

/-- Function `safe_word_extraction_until_comma`: like `extract_first_word`
but also stopping at a comma; the pointer is not moved. -/
def safe_word_extraction_until_comma (line : List Char) : List Char :=
  (skipIsspace line).takeWhile (fun c => !(isspace c ∨ c = ','))

/-- Function `extract_number` (in `utilities.c`): optional sign, a digit
run, no trailing-character check; a leading `'0'` followed by a digit is
rejected as octal. -/
def extract_number (word : List Char) : Option Int :=
  match word with
  | [] => none
  | c0 :: rest =>
      if !(isdigit c0 || c0 = '-' || c0 = '+') then none
      else if decide (c0 = '0') && (match rest with
          | c1 :: _ => isdigit c1
          | [] => false) then none
      else if c0 = '-' ∨ c0 = '+' then
        match rest with
        | [] => none
        | c1 :: _ =>
            if !isdigit c1 then none
            else
              let (number, _) := readDigits rest 0
              some (if c0 = '+' then number else -number)
      else
        let (number, _) := readDigits word 0
        some (number)

/-- Function `extract_integer` (in `first_pass_utility.c`): optional sign,
a digit run, then only whitespace followed by a comma, `'\n'` or the end of
the string. -/
def extract_integer (str : List Char) : Option Int :=
  match str with
  | [] => none
  | _ =>
      let s1 := skipIsspace str
      let (sign, s2) : Int × List Char :=
        match s1 with
        | '+' :: rest => (1, rest)
        | '-' :: rest => (-1, rest)
        | _ => (1, s1)
      match s2 with
      | [] => none
      | c :: _ =>
          if !isdigit c then none
          else
            let (result, s3) := readDigits s2 0
            match skipIsspace s3 with
            | [] => some (result * sign)
            | ',' :: _ => some (result * sign)
            | '\n' :: _ => some (result * sign)
            | _ => none

/-- Function `is_valid_data_directive`: syntax check of one `.data` element
up to a comma or the end of the string (not invoked by the `.data`
processing path; kept for the record).  The octal guard rejects a string
whose element starts with `'0'` followed by another digit, provided the
whole string is longer than one character. -/
def is_valid_data_directive (str : List Char) : Bool :=
  match str with
  | [] => false
  | _ =>
      let s1 := skipIsspace str
      let s2 := match s1 with
        | c :: cs => if c = '+' ∨ c = '-' then cs else s1
        | [] => s1
      if decide (str.length > 1) && (match s2 with
          | '0' :: c2 :: _ => isdigit c2
          | _ => false) then false
      else
        match s2 with
        | [] => false
        | c :: _ =>
            if !isalnum c then false
            else
              match skipIsspace (s2.dropWhile (fun d => isalnum d)) with
              | ',' :: cs => skipIsspace cs ≠ []
              | [] => true
              | _ => false

/-- Function `data_directive_value_extraction`: resolve the next element as
a previously defined constant (when any constants exist) or as an integer
literal. -/
def data_directive_value_extraction (translationUnit : TranslationUnit)
    (line : List Char) : Option Int :=
  match line with
  | [] => none
  | _ =>
      let tempConstantWord := safe_word_extraction_until_comma line
      let fromConst : Option Int :=
        if translationUnit.constantList.length > 0 then
          (translationUnit.constantList.find?
            (fun c => c.constName == String.mk tempConstantWord)).map
              (·.constValue)
        else none
      match fromConst with
      | some v => some v
      | none => extract_integer line

/-- The element loop of `data_directive_handling`: repeatedly extract a
value and advance past it and the following comma.  The fuel argument
bounds the iteration count (each C iteration either consumes at least one
character or is followed by a failing extraction, and the concrete runs
below stay well under `line.length + 1`). -/
def data_directive_loop (translationUnit : TranslationUnit) :
    Nat → List Char → List Int → List Int × List Char
  | 0, line, data => (data, line)
  | _ + 1, [], data => (data, [])
  | fuel + 1, line, data =>
      match data_directive_value_extraction translationUnit line with
      | none => (data, line)
      | some dataValue =>
          let line1 := moveToNonWhite line
          let line2 := moveToNextData line1
          let line3 := moveToNonWhite line2
          let line4 :=
            match line3 with
            | [] => line3
            | '\n' :: _ => line3
            | _ :: rest => rest
          data_directive_loop translationUnit fuel line4 (data ++ [dataValue])

/-- Function `data_directive_handling`: scan the comma-separated element
list; an empty list or trailing junk is an error, otherwise yield the
extracted values. -/
def data_directive_handling (translationUnit : TranslationUnit)
    (line : List Char) : Except String (List Int) :=
  let line1 := moveToNonWhite line
  let (data, lineEnd) :=
    data_directive_loop translationUnit (line1.length + 1) line1 []
  if data.isEmpty then
    .error "DATA_DIR_MISSING_PARAMETERS_ERR"
  else
    match lineEnd with
    | [] => .ok data
    | '\n' :: _ => .ok data
    | _ => .error "DATA_DIR_SYNTAX_ERR"

/-! ### Command-line parsing for no-operand opcodes
(`command_instruction_parser.c`) -/

/-- Function `which_opcode`: look a mnemonic up in `opcodeDictionary`
(`none` models the C `NONE_OP` sentinel). -/
def which_opcode (name : List Char) : Option Opcode :=
  match name with
  | [] => none
  | _ =>
      (opcodeDictionary.find? (fun e => e.2 == String.mk name)).map (·.1)

/-- Function `insert_error`: only the first error of a line is kept. -/
def insert_error (lineDescriptor : AbstractLineDescriptor) (error : String) :
    AbstractLineDescriptor :=
  if lineDescriptor.lineError.isSome then lineDescriptor
  else { lineDescriptor with lineError := some error }

/-- Model of the uninitialized `Operand` union members of a freshly parsed
command with fewer than two operands. -/
def uninitOperand : Operand := .immediate (.integerVal 0)

/-- Function `handle_no_operands_opcode`: re-extract and validate the
mnemonic, reject trailing characters, and classify the line as a
command with no operands (the builder pre-set both addressing types to
`NONE_ADDR`). -/
def handle_no_operands_opcode (line : List Char)
    (lineDescriptor : AbstractLineDescriptor) : AbstractLineDescriptor :=
  let line1 := moveToNonWhite line
  let opcodeName := extract_first_word line1
  match which_opcode opcodeName with
  | none => insert_error lineDescriptor "OPCODE_FORMAT_ERR"
  | some opcodeType =>
      let line2 := moveToNextWord line1
      let (redundantChar, _) := extract_token_until_comma line2
      if redundantChar ≠ [] then
        insert_error lineDescriptor "REDUNDANT_VAL_CMD_ERR"
      else
        { lineDescriptor with
            content := .command
              ⟨opcodeType, 0, uninitOperand, uninitOperand,
                .NONE_ADDR, .NONE_ADDR⟩ }

/-! ### Output file generation (`file_generation.c`) -/

/-- The base-4 glyph table `SpecialBase4`: 0 to `'*'`, 1 to `'#'`,
2 to `'%'`, 3 to `'!'`. -/
def SpecialBase4 : List Char := ['*', '#', '%', '!']

/-- Function `print_encoded_base4_machine_word`: the seven base-4 digits of
bits 13..0, most significant first. -/
def print_encoded_base4_machine_word (code : Nat) : String :=
  String.mk ([12, 10, 8, 6, 4, 2, 0].map
    (fun i => SpecialBase4.getD ((code >>> i) &&& 3) '*'))

/-- The `printf` conversion `%04d` for a nonnegative count or address. -/
def pad4 (n : Nat) : String :=
  let s := toString n
  String.mk (List.replicate (4 - s.length) '0') ++ s

/-- The `printf` conversion `%04d` for a C `int`. -/
def pad4Int (i : Int) : String :=
  if i < 0 then "-" ++ toString (-i) else pad4 i.toNat

/-- Function `generate_ob_file`, as the list of lines written: the header
`"  <IC> <DC>"`, then one line per code word and one per data word, each
`<addr4d> <7 glyphs>`, addresses starting at `IC_INIT_VALUE = 100`. -/
def generate_ob_file (codeImage : List Nat) (codeImageLength : Nat)
    (dataImage : List Nat) (dataImageLength : Nat) : List String :=
  let header := "  " ++ toString codeImageLength ++ " " ++
    toString dataImageLength
  let codeLines := (codeImage.take codeImageLength).enum.map
    (fun p => pad4 (p.1 + 100) ++ " " ++
      print_encoded_base4_machine_word p.2)
  let dataLines := (dataImage.take dataImageLength).enum.map
    (fun p => pad4 (p.1 + codeImageLength + 100) ++ " " ++
      print_encoded_base4_machine_word p.2)
  header :: (codeLines ++ dataLines)

/-- Function `generate_ent_file`, as the list of lines written. -/
def generate_ent_file (entList : List Symbol) : List String :=
  entList.map (fun s => s.symbolName ++ "\t" ++ pad4Int s.address)

/-- Function `sortExternals`: a `qsort` of the first `extCount` elements by
ascending address. -/
def sortExternals (extList : List ExternalSymbolInfo) (extCount : Nat) :
    List ExternalSymbolInfo :=
  (extList.take extCount).mergeSort
      (fun a b => decide (a.addresses ≤ b.addresses)) ++
    extList.drop extCount

/-- The record list `generate_ext_file` prints, in order: when at least two
records exist the source calls `sortExternals` with the constant 0 as the
element count, so the list order is in fact unchanged. -/
def generate_ext_list (extList : List ExternalSymbolInfo) :
    List ExternalSymbolInfo :=
  if extList.length > 1 then sortExternals extList 0 else extList

/-- Function `generate_ext_file`, as the list of lines written; each line
shows the use-site address offset by `IC_INIT_VALUE = 100`. -/
def generate_ext_file (extList : List ExternalSymbolInfo) : List String :=
  (generate_ext_list extList).map
    (fun r => r.externalName ++ "\t" ++ pad4Int (r.addresses + 100))

/-- Function `generate_files`: the object file is always produced; the
`.ent` / `.ext` files only when their lists are nonempty. -/
def generate_files (translationUnit : TranslationUnit) :
    List String × Option (List String) × Option (List String) :=
  (generate_ob_file translationUnit.codeImage translationUnit.IC
      translationUnit.dataImage translationUnit.DC,
    if translationUnit.entryList.length > 0 then
      some (generate_ent_file translationUnit.entryList)
    else none,
    if translationUnit.externalsList.length > 0 then
      some (generate_ext_file translationUnit.externalsList)
    else none)

/-! ### Arithmetic facts about the encoded word shapes -/

/-- Bitwise-or of a word with clear low bits and a 2-bit field is
addition. -/
theorem or_four_mul (a b : Nat) (hb : b < 4) : (4 * a) ||| b = 4 * a + b := by
  apply Nat.eq_of_testBit_eq
  intro j
  have hL : Nat.testBit (4 * a) j =
      if j < 2 then false else a.testBit (j - 2) := by
    rw [show (4 : Nat) * a = 2 ^ 2 * a + 0 by ring,
      Nat.testBit_mul_pow_two_add a (show (0 : Nat) < 2 ^ 2 by norm_num) j]
    simp
  have hR : Nat.testBit (4 * a + b) j =
      if j < 2 then b.testBit j else a.testBit (j - 2) := by
    rw [show (4 : Nat) * a + b = 2 ^ 2 * a + b by ring,
      Nat.testBit_mul_pow_two_add a (show b < 2 ^ 2 from hb) j]
  rw [Nat.testBit_lor, hL, hR]
  by_cases hj : j < 2
  · simp [hj]
  · have hbj : b.testBit j = false :=
      Nat.testBit_eq_false_of_lt (lt_of_lt_of_le hb (by
        calc (4 : Nat) = 2 ^ 2 := by norm_num
        _ ≤ 2 ^ j := Nat.pow_le_pow_right (by norm_num) (by omega)))
    simp [hj, hbj]

/-- Bitwise-or distributes over the common factor 4. -/
theorem four_mul_or_four_mul (a b : Nat) :
    (4 * a) ||| (4 * b) = 4 * (a ||| b) := by
  apply Nat.eq_of_testBit_eq
  intro j
  have key : ∀ x : Nat, Nat.testBit (4 * x) j =
      if j < 2 then false else x.testBit (j - 2) := by
    intro x
    rw [show (4 : Nat) * x = 2 ^ 2 * x + 0 by ring,
      Nat.testBit_mul_pow_two_add x (show (0 : Nat) < 2 ^ 2 by norm_num) j]
    simp
  rw [Nat.testBit_lor, key, key, key, Nat.testBit_lor]
  by_cases hj : j < 2 <;> simp [hj]

/-- The additional-word encoding `(a << 2) | v` with a 2-bit ARE field. -/
theorem shiftLeft_two_or (a v : Nat) (hv : v < 4) :
    (a <<< 2) ||| v = 4 * a + v := by
  rw [Nat.shiftLeft_eq, show a * 2 ^ 2 = 4 * a by ring]
  exact or_four_mul a v hv

/-- The low two bits of the opcode word are zero. -/
theorem first_word_mod_four (op src tgt : Nat) :
    (((op <<< 6) ||| (src <<< 4)) ||| (tgt <<< 2)) % 4 = 0 := by
  rw [Nat.shiftLeft_eq, Nat.shiftLeft_eq, Nat.shiftLeft_eq,
    show op * 2 ^ 6 = 4 * (16 * op) by ring,
    show src * 2 ^ 4 = 4 * (4 * src) by ring,
    show tgt * 2 ^ 2 = 4 * tgt by ring,
    four_mul_or_four_mul, four_mul_or_four_mul]
  omega

/-- The low two bits of a register word are zero. -/
theorem register_word_mod_four (r sh : Nat) (hsh : 2 ≤ sh) :
    (r <<< sh) % 4 = 0 := by
  rw [Nat.shiftLeft_eq]
  obtain ⟨k, rfl⟩ := Nat.exists_eq_add_of_le hsh
  rw [pow_add]
  have : r * (2 ^ 2 * 2 ^ k) = 4 * (r * 2 ^ k) := by ring
  rw [this]
  omega

/-- The shared register word has clear low bits. -/
theorem double_register_word_mod_four (s t : Nat) :
    ((s <<< 5) ||| (t <<< 2)) % 4 = 0 := by
  rw [Nat.shiftLeft_eq, Nat.shiftLeft_eq,
    show s * 2 ^ 5 = 4 * (8 * s) by ring,
    show t * 2 ^ 2 = 4 * t by ring, four_mul_or_four_mul]
  omega

/-- An immediate word `(value << 2)`, reduced to `unsigned int`, has clear
low bits. -/
theorem u32_mul_four_mod_four (v : Int) : u32 (v * 4) % 4 = 0 := by
  show ((v * 4) % 4294967296).toNat % 4 = 0
  omega

/-- Reducing a word modulo `2 ^ 32` does not change its ARE bits. -/
theorem mod_u32_mod_four (w : Nat) : w % 4294967296 % 4 = w % 4 :=
  Nat.mod_mod_of_dvd w (by norm_num)

/-! ### The positions of ARE = 01 words in a code image -/

/-- The indices (from base `k`) of the words whose ARE field is `01`. -/
def areOneIndicesFrom : Nat → List Nat → List Nat
  | _, [] => []
  | k, w :: ws =>
      (if w % 4 = 1 then [k] else []) ++ areOneIndicesFrom (k + 1) ws

theorem areOneIndicesFrom_append (k : Nat) (l₁ l₂ : List Nat) :
    areOneIndicesFrom k (l₁ ++ l₂) =
      areOneIndicesFrom k l₁ ++ areOneIndicesFrom (k + l₁.length) l₂ := by
  induction l₁ generalizing k with
  | nil => simp [areOneIndicesFrom]
  | cons w ws ih =>
      simp only [List.cons_append, areOneIndicesFrom, List.append_eq,
        ih (k + 1), List.length_cons, List.append_assoc]
      rw [show k + 1 + ws.length = k + (ws.length + 1) by omega]

theorem areOneIndicesFrom_ge (k : Nat) (l : List Nat) :
    ∀ i ∈ areOneIndicesFrom k l, k ≤ i := by
  induction l generalizing k with
  | nil => simp [areOneIndicesFrom]
  | cons w ws ih =>
      intro i hi
      simp only [areOneIndicesFrom, List.mem_append] at hi
      rcases hi with hi | hi
      · rcases (by split at hi <;> simp_all : i = k) with rfl
        exact le_refl i
      · exact le_trans (Nat.le_succ k) (ih (k + 1) i hi)

theorem areOneIndicesFrom_sorted (k : Nat) (l : List Nat) :
    (areOneIndicesFrom k l).Pairwise (· < ·) := by
  induction l generalizing k with
  | nil => simp [areOneIndicesFrom]
  | cons w ws ih =>
      simp only [areOneIndicesFrom]
      rw [List.pairwise_append]
      refine ⟨?_, ih (k + 1), ?_⟩
      · split <;> simp
      · intro i hi j hj
        have hik : i = k := by split at hi <;> simp_all
        have := areOneIndicesFrom_ge (k + 1) ws j hj
        omega

/-! ### The second-pass ARE / extern-record invariant -/

/-- Invariant maintained by the second pass: `IC` counts the code words;
no word has ARE bits `11`; an ARE `01` word is the literal word 1 (extern
reference with address field 0); the extern-use records list, in order,
exactly the indices of the ARE `01` words; and every record names an
`EXTERN_LABEL` of the symbol table. -/
def SPInv (tu : TranslationUnit) : Prop :=
  tu.IC = tu.codeImage.length ∧
  (∀ w ∈ tu.codeImage, w % 4 ≠ 3) ∧
  (∀ w ∈ tu.codeImage, w % 4 = 1 → w = 1) ∧
  (tu.externalsList.map (fun r => r.addresses) =
    (areOneIndicesFrom 0 tu.codeImage).map (fun n : Nat => (n : Int))) ∧
  (∀ r ∈ tu.externalsList, ∃ s ∈ tu.symbolTable,
    s.symbolName = r.externalName ∧ s.symbolType = SymbolType.EXTERN_LABEL)

theorem SPInv_insert (tu : TranslationUnit) (w : Nat) (h : SPInv tu)
    (h3 : w % 4 ≠ 3) (h1 : w % 4 ≠ 1) :
    SPInv (insert_machine_word tu w) := by
  obtain ⟨hic, hq3, hq1, hcorr, hsym⟩ := h
  refine ⟨?_, ?_, ?_, ?_, ?_⟩ <;>
    simp only [insert_machine_word, List.length_append, List.mem_append,
      List.length_singleton, List.mem_singleton]
  · omega
  · rintro x (hx | rfl)
    · exact hq3 x hx
    · rw [mod_u32_mod_four]; exact h3
  · rintro x (hx | rfl)
    · exact hq1 x hx
    · rw [mod_u32_mod_four]; intro hc; exact absurd hc h1
  · rw [areOneIndicesFrom_append, Nat.zero_add]
    have hmod : (w % 4294967296) % 4 ≠ 1 := by rw [mod_u32_mod_four]; exact h1
    have hnil : areOneIndicesFrom tu.codeImage.length [w % 4294967296] = [] := by
      simp [areOneIndicesFrom, hmod]
    rw [hnil, List.append_nil]
    exact hcorr
  · exact hsym

theorem SPInv_insert_ext_use (tu : TranslationUnit) (name : String)
    (h : SPInv tu)
    (hs : ∃ s ∈ tu.symbolTable, s.symbolName = name ∧
      s.symbolType = SymbolType.EXTERN_LABEL) :
    SPInv (insert_machine_word (updateExternTable tu name) 1) := by
  obtain ⟨hic, hq3, hq1, hcorr, hsym⟩ := h
  refine ⟨?_, ?_, ?_, ?_, ?_⟩ <;>
    simp only [insert_machine_word, updateExternTable, List.length_append,
      List.mem_append, List.length_singleton, List.mem_singleton]
  · omega
  · rintro x (hx | rfl)
    · exact hq3 x hx
    · decide
  · rintro x (hx | rfl)
    · exact hq1 x hx
    · intro; rfl
  · have hone : areOneIndicesFrom tu.codeImage.length [1 % 4294967296] =
        [tu.codeImage.length] := by
      simp [areOneIndicesFrom]
    rw [areOneIndicesFrom_append, Nat.zero_add, hone, List.map_append,
      hcorr, hic]
    simp
  · rintro r (hr | rfl)
    · exact hsym r hr
    · exact hs

theorem SPInv_encode_immediate (imm : ImmediateAddressing)
    (tu : TranslationUnit) (h : SPInv tu) :
    SPInv (encode_immediate_addressing imm tu).2 := by
  have hword : ∀ v : Int, u32 (v * 4) % 4 ≠ 3 ∧ u32 (v * 4) % 4 ≠ 1 := by
    intro v
    have := u32_mul_four_mod_four v
    omega
  unfold encode_immediate_addressing
  rcases imm with v | name
  · simp only
    split
    · exact SPInv_insert _ _ h (hword v).1 (hword v).2
    · exact h
  · cases hc : extract_constant name tu with
    | none => simpa [hc] using h
    | some v =>
        simp only [hc]
        split
        · exact SPInv_insert _ _ h (hword v).1 (hword v).2
        · exact h

theorem SPInv_encode_direct (lbl : String) (tu : TranslationUnit)
    (h : SPInv tu) :
    SPInv (encode_direct_addressing lbl tu).2 := by
  unfold encode_direct_addressing find_label_addressing
  cases hf : tu.symbolTable.find? (fun s => s.symbolName == lbl) with
  | none => simpa using h
  | some s =>
      by_cases hs : s.symbolType = SymbolType.EXTERN_LABEL
      · have hmem := List.mem_of_find?_eq_some hf
        have hname : s.symbolName = lbl := by
          have := List.find?_some hf
          simpa using this
        have hw : ((0 : Nat) <<< 2) ||| (ARE.EXTERNAL.val &&& 3) = 1 := by
          decide
        simp only [hs, if_pos, hw]
        exact SPInv_insert_ext_use tu lbl h ⟨s, hmem, hname, hs⟩
      · have hw : (u32 s.address <<< 2) ||| (ARE.RELOCATABLE.val &&& 3) =
            4 * u32 s.address + 2 := by
          exact shiftLeft_two_or _ _ (by decide)
        simp only [hs, if_neg, ite_false, hw]
        exact SPInv_insert _ _ h (by omega) (by omega)

theorem SPInv_encode_fixed (f : FixedIndexAddressing) (tu : TranslationUnit)
    (h : SPInv tu) (he : (encode_fixed_index_addressing f tu).1 = false) :
    SPInv (encode_fixed_index_addressing f tu).2 := by
  unfold encode_fixed_index_addressing at he ⊢
  unfold find_label_addressing at he ⊢
  cases hf : tu.symbolTable.find? (fun s => s.symbolName == f.labelName) with
  | none => simpa using h
  | some s =>
      by_cases hs : s.symbolType = SymbolType.EXTERN_LABEL
      · simp only [hf, hs, if_pos] at he ⊢
        cases hidx : get_addressing_index f (updateExternTable tu f.labelName) with
        | none => simp [hidx] at he
        | some idx =>
            have hmem := List.mem_of_find?_eq_some hf
            have hname : s.symbolName = f.labelName := by
              have := List.find?_some hf
              simpa using this
            have hw1 : ((0 : Nat) <<< 2) ||| (ARE.EXTERNAL.val &&& 3) = 1 := by
              decide
            have hw2 : (idx <<< 2) ||| (ARE.ABSOLUTE.val &&& 3) = 4 * idx := by
              have := shiftLeft_two_or idx (ARE.ABSOLUTE.val &&& 3) (by decide)
              simpa using this
            simp only [hidx, hw1, hw2]
            exact SPInv_insert _ _
              (SPInv_insert_ext_use tu f.labelName h ⟨s, hmem, hname, hs⟩)
              (by omega) (by omega)
      · simp only [hf, hs, if_neg, ite_false] at he ⊢
        cases hidx : get_addressing_index f tu with
        | none => simp [hidx] at he
        | some idx =>
            have hw1 : (u32 s.address <<< 2) ||| (ARE.RELOCATABLE.val &&& 3) =
                4 * u32 s.address + 2 :=
              shiftLeft_two_or _ _ (by decide)
            have hw2 : (idx <<< 2) ||| (ARE.ABSOLUTE.val &&& 3) = 4 * idx := by
              have := shiftLeft_two_or idx (ARE.ABSOLUTE.val &&& 3) (by decide)
              simpa using this
            simp only [hidx, hw1, hw2]
            exact SPInv_insert _ _
              (SPInv_insert _ _ h (by omega) (by omega))
              (by omega) (by omega)

theorem SPInv_encode_register (reg : Nat) (tu : TranslationUnit)
    (opType : OperandType) (h : SPInv tu) :
    SPInv (encode_direct_register_addressing reg tu opType) := by
  unfold encode_direct_register_addressing
  have hmod : (reg <<< (if opType = OperandType.SOURCE_OPERAND then 5 else 2)) % 4 = 0 := by
    apply register_word_mod_four
    split <;> omega
  exact SPInv_insert _ _ h (by omega) (by omega)

theorem SPInv_process_operand (ci : CommandInstruction)
    (tu : TranslationUnit) (addrType : AddressingType) (opType : OperandType)
    (h : SPInv tu)
    (he : (process_operand_encoding ci tu addrType opType).1 = false) :
    SPInv (process_operand_encoding ci tu addrType opType).2 := by
  cases addrType with
  | NONE_ADDR => exact h
  | IMMEDIATE_ADDR =>
      simp only [process_operand_encoding] at he ⊢
      split <;> exact SPInv_encode_immediate _ _ h
  | DIRECT_ADDR =>
      simp only [process_operand_encoding] at he ⊢
      split <;> exact SPInv_encode_direct _ _ h
  | FIXED_IDX_ADDR =>
      simp only [process_operand_encoding] at he ⊢
      by_cases ho : opType = OperandType.SOURCE_OPERAND <;>
        simp only [ho, if_true, if_false, ite_true, ite_false] at he ⊢ <;>
        exact SPInv_encode_fixed _ _ h he
  | DIRECT_REGISTER_ADDR =>
      simp only [process_operand_encoding] at he ⊢
      split <;> exact SPInv_encode_register _ _ _ h

theorem SPInv_first_word (ci : CommandInstruction) (tu : TranslationUnit)
    (h : SPInv tu) :
    SPInv (firs_machine_word_encoding ci tu) := by
  unfold firs_machine_word_encoding
  have hmod := first_word_mod_four ci.opcodeCommand.val
    (if ci.sourceOperandAddressingType = AddressingType.NONE_ADDR then 0
      else ci.sourceOperandAddressingType.fieldVal)
    (if ci.targetOperandAddressingType = AddressingType.NONE_ADDR then 0
      else ci.targetOperandAddressingType.fieldVal)
  exact SPInv_insert _ _ h (by omega) (by omega)

theorem SPInv_command (ci : CommandInstruction) (tu : TranslationUnit)
    (h : SPInv tu) (he : (second_pass_command ci tu).1 = false) :
    SPInv (second_pass_command ci tu).2 := by
  unfold second_pass_command at he ⊢
  have h1 := SPInv_first_word ci tu h
  by_cases hd : ci.sourceOperandAddressingType = .DIRECT_REGISTER_ADDR ∧
      ci.targetOperandAddressingType = .DIRECT_REGISTER_ADDR
  all_goals simp only [hd, if_pos, if_neg, ite_true, ite_false,
    not_false_eq_true] at he ⊢
  · unfold double_direct_register_encoding
    have hmod := double_register_word_mod_four ci.sourceOperand.reg
      ci.targetOperand.reg
    exact SPInv_insert _ _ h1 (by omega) (by omega)
  · rcases hp1 : process_operand_encoding ci
        (firs_machine_word_encoding ci tu)
        ci.sourceOperandAddressingType .SOURCE_OPERAND with ⟨e1, tu2⟩
    rcases hp2 : process_operand_encoding ci tu2
        ci.targetOperandAddressingType .TARGET_OPERAND with ⟨e2, tu3⟩
    simp only [hp1, hp2] at he ⊢
    have he12 : e1 = false ∧ e2 = false := by
      constructor <;> [skip; skip] <;> simp_all
    have h2 := SPInv_process_operand ci (firs_machine_word_encoding ci tu)
      ci.sourceOperandAddressingType .SOURCE_OPERAND h1
      (by rw [hp1]; exact he12.1)
    rw [hp1] at h2
    have h3 := SPInv_process_operand ci tu2
      ci.targetOperandAddressingType .TARGET_OPERAND h2
      (by rw [hp2]; exact he12.2)
    rw [hp2] at h3
    exact h3

theorem SPInv_second_pass (lines : List AbstractLineDescriptor)
    (tu : TranslationUnit) (h : SPInv tu)
    (hok : (second_pass lines tu).1 = true) :
    SPInv (second_pass lines tu).2 := by
  induction lines generalizing tu with
  | nil => exact h
  | cons l rest ih =>
      unfold second_pass at hok ⊢
      cases hl : l.content with
      | command ci =>
          simp only [hl] at hok ⊢
          rcases hc : second_pass_command ci tu with ⟨err, tu'⟩
          rcases hr : second_pass rest tu' with ⟨ok, tu''⟩
          simp only [hc, hr] at hok ⊢
          have herr : err = false ∧ ok = true := by
            constructor <;> simp_all
          have h1 := SPInv_command ci tu h (by rw [hc]; exact herr.1)
          rw [hc] at h1
          have h2 := ih tu' h1 (by rw [hr]; exact herr.2)
          rw [hr] at h2
          exact h2
      | initVal => simp only [hl] at hok ⊢; exact ih tu h hok
      | empty => simp only [hl] at hok ⊢; exact ih tu h hok
      | comment => simp only [hl] at hok ⊢; exact ih tu h hok
      | constantDef a b => simp only [hl] at hok ⊢; exact ih tu h hok
      | directiveData d => simp only [hl] at hok ⊢; exact ih tu h hok
      | directiveString s => simp only [hl] at hok ⊢; exact ih tu h hok
      | directiveEntry n => simp only [hl] at hok ⊢; exact ih tu h hok
      | directiveExtern n => simp only [hl] at hok ⊢; exact ih tu h hok

/-! ### Claim C5 -/

/-- C5: for every error-free second pass run from a fresh translation unit,
every appended word has ARE bits in {00, 01, 10}; a word with ARE = 01 is
the literal word 1 (its address field is 0); the extern-use records
correspond, in order and one-to-one, to the ARE = 01 words, each record's
address being the IC (code-image index) of its word; and every record names
a symbol of kind `EXTERN_LABEL`. -/
theorem second_pass_ARE_discipline (lines : List AbstractLineDescriptor)
    (tu0 : TranslationUnit) (h1 : tu0.codeImage = []) (h2 : tu0.IC = 0)
    (h3 : tu0.externalsList = [])
    (hok : (second_pass lines tu0).1 = true) :
    (∀ w ∈ (second_pass lines tu0).2.codeImage,
        w % 4 = 0 ∨ w % 4 = 1 ∨ w % 4 = 2) ∧
    (∀ w ∈ (second_pass lines tu0).2.codeImage, w % 4 = 1 → w = 1) ∧
    ((second_pass lines tu0).2.externalsList.map (fun r => r.addresses) =
      (areOneIndicesFrom 0 (second_pass lines tu0).2.codeImage).map
        (fun n : Nat => (n : Int))) ∧
    (∀ r ∈ (second_pass lines tu0).2.externalsList,
        ∃ s ∈ (second_pass lines tu0).2.symbolTable,
          s.symbolName = r.externalName ∧
          s.symbolType = SymbolType.EXTERN_LABEL) := by
  have h0 : SPInv tu0 := by
    refine ⟨by rw [h1, h2]; rfl, ?_, ?_, ?_, ?_⟩
    · rw [h1]; intro w hw; cases hw
    · rw [h1]; intro w hw; cases hw
    · rw [h1, h3]; rfl
    · rw [h3]; intro r hr; cases hr
  obtain ⟨hic, hq3, hq1, hcorr, hsym⟩ := SPInv_second_pass lines tu0 h0 hok
  refine ⟨?_, hq1, hcorr, hsym⟩
  intro w hw
  have := hq3 w hw
  omega

/-- A translation unit holding one extern symbol, used to exercise the
second pass. -/
def c5Unit : TranslationUnit :=
  { emptyTranslationUnit with
      symbolTable := [⟨"X", .EXTERN_LABEL, 100⟩] }

/-- A two-line program `mov X, r1` / `hlt` referencing the extern `X`. -/
def c5Lines : List AbstractLineDescriptor :=
  [ ⟨none, none, .command
      ⟨.MOV_OP, 2, .label "X", .register 1, .DIRECT_ADDR,
        .DIRECT_REGISTER_ADDR⟩⟩,
    ⟨none, none, .command
      ⟨.HLT_OP, 0, uninitOperand, uninitOperand, .NONE_ADDR, .NONE_ADDR⟩⟩ ]

/-- Witness: the ARE discipline instantiated on the concrete program
`mov X, r1; hlt` with `X` extern. -/
theorem second_pass_ARE_discipline_witness :
    (second_pass c5Lines c5Unit).1 = true ∧
    ((∀ w ∈ (second_pass c5Lines c5Unit).2.codeImage,
        w % 4 = 0 ∨ w % 4 = 1 ∨ w % 4 = 2) ∧
      (∀ w ∈ (second_pass c5Lines c5Unit).2.codeImage, w % 4 = 1 → w = 1) ∧
      ((second_pass c5Lines c5Unit).2.externalsList.map
          (fun r => r.addresses) =
        (areOneIndicesFrom 0 (second_pass c5Lines c5Unit).2.codeImage).map
          (fun n : Nat => (n : Int))) ∧
      (∀ r ∈ (second_pass c5Lines c5Unit).2.externalsList,
          ∃ s ∈ (second_pass c5Lines c5Unit).2.symbolTable,
            s.symbolName = r.externalName ∧
            s.symbolType = SymbolType.EXTERN_LABEL)) :=
  ⟨by decide, second_pass_ARE_discipline c5Lines c5Unit rfl rfl rfl
    (by decide)⟩

/-! ### Claim C8: ordering of the `.ent` and `.ext` lines -/

theorem sortExternals_zero (l : List ExternalSymbolInfo) :
    sortExternals l 0 = l := by
  simp [sortExternals]

theorem generate_ext_list_eq (l : List ExternalSymbolInfo) :
    generate_ext_list l = l := by
  unfold generate_ext_list
  split
  · exact sortExternals_zero l
  · rfl

theorem sort_entries_sorted (l : List Symbol) :
    ((sort_entries l).map (fun s => s.address)).Pairwise (· ≤ ·) := by
  have h := @List.sorted_mergeSort Symbol
    (fun a b : Symbol => decide (a.address ≤ b.address))
    (fun a b c hab hbc => by
      simp only [decide_eq_true_eq] at *
      omega)
    (fun a b => by
      simp only [Bool.or_eq_true, decide_eq_true_eq]
      omega)
    l
  rw [List.pairwise_map]
  exact h.imp (fun hab => by simpa using hab)

theorem process_symbol_table_ent_sorted (tu : TranslationUnit) (ic : Nat)
    (h : tu.entryList = []) :
    (((process_symbol_table tu ic).2.entryList).map
      (fun s => s.address)).Pairwise (· ≤ ·) := by
  unfold process_symbol_table
  rcases hp : process_symbols tu.symbolTable ic with ⟨tbl, ents, err⟩
  simp only [h, List.nil_append]
  split
  · exact sort_entries_sorted ents
  · rename_i hlen
    match ents, hlen with
    | [], _ => simp
    | [a], _ => simp
    | a :: b :: t, hlen => simp at hlen

/-! Preservation of the entry list across the first pass loop. -/

theorem insert_symbol_entryList (ld : AbstractLineDescriptor)
    (tu : TranslationUnit) (ic dc : Nat) (t : SymbolType) :
    (insert_symbol_to_table ld tu ic dc t).entryList = tu.entryList := by
  unfold insert_symbol_to_table
  repeat' split
  all_goals rfl

theorem handle_label_entryList (ld : AbstractLineDescriptor)
    (tu : TranslationUnit) (ic dc : Nat) :
    (handle_label ld tu ic dc).2.entryList = tu.entryList := by
  unfold handle_label
  cases hfind : find_symbol (ld.labelName.getD "") tu.symbolTable with
  | none =>
      simp only [hfind]
      cases ld.content <;>
        simp only [insert_symbol_entryList]
  | some s =>
      simp only [hfind]
      split
      · cases ld.content <;> rfl
      · rfl

theorem handle_data_image_entryList (ld : AbstractLineDescriptor)
    (tu : TranslationUnit) (dc : Nat) :
    (handle_data_image ld tu dc).1.entryList = tu.entryList := by
  unfold handle_data_image
  cases ld.content <;> rfl

theorem first_pass_after_label_entryList (ld : AbstractLineDescriptor)
    (st : FirstPassState) :
    (first_pass_after_label ld st).translationUnit.entryList =
      st.translationUnit.entryList := by
  unfold first_pass_after_label
  cases hld : ld.content with
  | initVal => rfl
  | empty => rfl
  | comment => rfl
  | constantDef n v =>
      cases hfind : find_symbol n st.translationUnit.symbolTable <;>
        simp only [hfind, insert_symbol_entryList]
  | directiveData d =>
      exact handle_data_image_entryList ld st.translationUnit st.dc
  | directiveString s =>
      exact handle_data_image_entryList ld st.translationUnit st.dc
  | directiveEntry n =>
      cases hfind : find_symbol n st.translationUnit.symbolTable with
      | none => simp only [hfind, insert_symbol_entryList]
      | some s =>
          simp only [hfind]
          repeat' split
          all_goals rfl
  | directiveExtern n =>
      simp only [LineContent.entryName]
      cases hfind : find_symbol n st.translationUnit.symbolTable <;>
        simp only [hfind, insert_symbol_entryList]
  | command ci =>
      dsimp only
      split <;> rfl

theorem first_pass_line_entryList (ld : AbstractLineDescriptor)
    (st : FirstPassState) :
    (first_pass_line ld st).translationUnit.entryList =
      st.translationUnit.entryList := by
  unfold first_pass_line
  split
  · rfl
  · cases hld : ld.content <;> simp only
    all_goals
      split
      · rcases hl : handle_label ld st.translationUnit st.ic st.dc
          with ⟨labelErr, tu'⟩
        have hpres : tu'.entryList = st.translationUnit.entryList := by
          have := handle_label_entryList ld st.translationUnit st.ic st.dc
          rw [hl] at this
          exact this
        simp only [hl]
        split
        · exact hpres
        · rw [first_pass_after_label_entryList]
          exact hpres
      · exact first_pass_after_label_entryList ld st

theorem first_pass_fold_entryList (lines : List AbstractLineDescriptor)
    (st : FirstPassState) :
    (lines.foldl (fun st ld => first_pass_line ld st)
      st).translationUnit.entryList = st.translationUnit.entryList := by
  induction lines generalizing st with
  | nil => rfl
  | cons l rest ih =>
      rw [List.foldl_cons, ih, first_pass_line_entryList]

/-- C8, both output files: the `.ent` lines produced after any first pass
started from an empty entry list are in non-decreasing address order, and
the `.ext` lines produced from any error-free second pass run (printed in
the stored record order, the `sortExternals` call being a no-op on 0
elements) are in non-decreasing address order. -/
theorem ent_ext_lines_address_order :
    (∀ (lines : List AbstractLineDescriptor) (tu0 : TranslationUnit),
        tu0.entryList = [] →
        (((first_pass lines tu0).2.entryList).map
          (fun s => s.address)).Pairwise (· ≤ ·)) ∧
    (∀ (lines : List AbstractLineDescriptor) (tu0 : TranslationUnit),
        tu0.codeImage = [] → tu0.IC = 0 → tu0.externalsList = [] →
        (second_pass lines tu0).1 = true →
        ((generate_ext_list (second_pass lines tu0).2.externalsList).map
          (fun r => r.addresses + 100)).Pairwise (· ≤ ·)) := by
  constructor
  · intro lines tu0 h0
    unfold first_pass
    apply process_symbol_table_ent_sorted
    split <;>
      simp only [first_pass_fold_entryList, h0]
  · intro lines tu0 h1 h2 h3 hok
    have h0 : SPInv tu0 := by
      refine ⟨by rw [h1, h2]; rfl, ?_, ?_, ?_, ?_⟩
      · rw [h1]; intro w hw; cases hw
      · rw [h1]; intro w hw; cases hw
      · rw [h1, h3]; rfl
      · rw [h3]; intro r hr; cases hr
    obtain ⟨hic, hq3, hq1, hcorr, hsym⟩ := SPInv_second_pass lines tu0 h0 hok
    rw [generate_ext_list_eq]
    have hmaps : (second_pass lines tu0).2.externalsList.map
        (fun r => r.addresses + 100) =
        (areOneIndicesFrom 0 (second_pass lines tu0).2.codeImage).map
          (fun n : Nat => (n : Int) + 100) := by
      rw [show (fun r : ExternalSymbolInfo => r.addresses + 100) =
        ((fun a : Int => a + 100) ∘ (fun r : ExternalSymbolInfo =>
          r.addresses)) from rfl, ← List.map_map, hcorr, List.map_map]
      rfl
    rw [hmaps, List.pairwise_map]
    refine (areOneIndicesFrom_sorted 0 _).imp ?_
    intro a b h
    dsimp only
    omega

/-- Witness: the ordering facts instantiated on an entry-defining program
and on the extern-referencing program `mov X, r1; hlt`. -/
theorem ent_ext_lines_address_order_witness :
    ((((first_pass
        [⟨none, some "A", .command ⟨.HLT_OP, 0, uninitOperand, uninitOperand,
            .NONE_ADDR, .NONE_ADDR⟩⟩,
          ⟨none, none, .directiveEntry "A"⟩]
        emptyTranslationUnit).2.entryList).map
      (fun s => s.address)).Pairwise (· ≤ ·)) ∧
    ((second_pass c5Lines c5Unit).1 = true ∧
      ((generate_ext_list (second_pass c5Lines c5Unit).2.externalsList).map
        (fun r => r.addresses + 100)).Pairwise (· ≤ ·)) :=
  ⟨ent_ext_lines_address_order.1 _ emptyTranslationUnit rfl,
    by decide,
    ent_ext_lines_address_order.2 c5Lines c5Unit rfl rfl rfl (by decide)⟩

/-! ### Claim C6: instruction sizes -/

/-- The per-operand word count as the specification states it: immediate
+1, direct +1, fixed-index +2, direct-register +1, absent operand +0. -/
def spec_operand_words : AddressingType → Nat
  | .IMMEDIATE_ADDR => 1
  | .DIRECT_ADDR => 1
  | .FIXED_IDX_ADDR => 2
  | .DIRECT_REGISTER_ADDR => 1
  | .NONE_ADDR => 0

theorem insert_machine_word_length (tu : TranslationUnit) (w : Nat) :
    (insert_machine_word tu w).codeImage.length = tu.codeImage.length + 1 := by
  simp [insert_machine_word]

theorem encode_immediate_length (imm : ImmediateAddressing)
    (tu : TranslationUnit)
    (he : (encode_immediate_addressing imm tu).1 = false) :
    (encode_immediate_addressing imm tu).2.codeImage.length =
      tu.codeImage.length + 1 := by
  rcases imm with v | name
  · by_cases hv : two_complement_validation v
    · simp [encode_immediate_addressing, hv, insert_machine_word]
    · simp [encode_immediate_addressing, hv] at he
  · cases hc : extract_constant name tu with
    | none => simp [encode_immediate_addressing, hc] at he
    | some v =>
        by_cases hv : two_complement_validation v
        · simp [encode_immediate_addressing, hc, hv, insert_machine_word]
        · simp [encode_immediate_addressing, hc, hv] at he

theorem encode_direct_length (lbl : String) (tu : TranslationUnit)
    (he : (encode_direct_addressing lbl tu).1 = false) :
    (encode_direct_addressing lbl tu).2.codeImage.length =
      tu.codeImage.length + 1 := by
  unfold encode_direct_addressing find_label_addressing at he ⊢
  cases hf : tu.symbolTable.find? (fun s => s.symbolName == lbl) with
  | none => rw [hf] at he; cases he
  | some s =>
      simp only [hf] at he ⊢
      split <;>
        simp [insert_machine_word_length, updateExternTable]

theorem encode_fixed_length (f : FixedIndexAddressing) (tu : TranslationUnit)
    (he : (encode_fixed_index_addressing f tu).1 = false) :
    (encode_fixed_index_addressing f tu).2.codeImage.length =
      tu.codeImage.length + 2 := by
  unfold encode_fixed_index_addressing find_label_addressing at he ⊢
  cases hf : tu.symbolTable.find? (fun s => s.symbolName == f.labelName) with
  | none => rw [hf] at he; cases he
  | some s =>
      simp only [hf] at he ⊢
      by_cases hs : s.symbolType = SymbolType.EXTERN_LABEL <;>
        simp only [hs, if_pos, if_neg, ite_true, ite_false,
          not_false_eq_true] at he ⊢
      · cases hidx : get_addressing_index f
            (updateExternTable tu f.labelName) with
        | none => simp [hidx] at he
        | some idx =>
            simp [hidx, insert_machine_word, updateExternTable]
      · cases hidx : get_addressing_index f tu with
        | none => simp [hidx] at he
        | some idx =>
            simp [hidx, insert_machine_word]

theorem encode_register_length (reg : Nat) (tu : TranslationUnit)
    (opType : OperandType) :
    (encode_direct_register_addressing reg tu opType).codeImage.length =
      tu.codeImage.length + 1 := by
  unfold encode_direct_register_addressing
  exact insert_machine_word_length tu _

theorem process_operand_length (ci : CommandInstruction)
    (tu : TranslationUnit) (addrType : AddressingType) (opType : OperandType)
    (he : (process_operand_encoding ci tu addrType opType).1 = false) :
    (process_operand_encoding ci tu addrType opType).2.codeImage.length =
      tu.codeImage.length + spec_operand_words addrType := by
  cases addrType with
  | NONE_ADDR => rfl
  | IMMEDIATE_ADDR =>
      simp only [process_operand_encoding] at he ⊢
      by_cases ho : opType = OperandType.SOURCE_OPERAND <;>
        simp only [ho, ite_true, ite_false] at he ⊢ <;>
        exact encode_immediate_length _ tu he
  | DIRECT_ADDR =>
      simp only [process_operand_encoding] at he ⊢
      by_cases ho : opType = OperandType.SOURCE_OPERAND <;>
        simp only [ho, ite_true, ite_false] at he ⊢ <;>
        exact encode_direct_length _ tu he
  | FIXED_IDX_ADDR =>
      simp only [process_operand_encoding] at he ⊢
      by_cases ho : opType = OperandType.SOURCE_OPERAND <;>
        simp only [ho, ite_true, ite_false] at he ⊢ <;>
        exact encode_fixed_length _ tu he
  | DIRECT_REGISTER_ADDR =>
      simp only [process_operand_encoding] at he ⊢
      split <;> exact encode_register_length _ tu _

theorem firs_machine_word_length (ci : CommandInstruction)
    (tu : TranslationUnit) :
    (firs_machine_word_encoding ci tu).codeImage.length =
      tu.codeImage.length + 1 := by
  unfold firs_machine_word_encoding
  exact insert_machine_word_length tu _

/-- C6: for a two-register instruction both the first-pass size computation
and the second-pass emission yield exactly 2 words; otherwise the size is
1 plus the per-operand contributions (immediate +1, direct +1, fixed-index
+2, direct-register +1, absent +0), and an error-free emission appends
exactly that many words. -/
theorem instruction_size_agreement (ci : CommandInstruction)
    (tu : TranslationUnit) :
    (ci.sourceOperandAddressingType = .DIRECT_REGISTER_ADDR ∧
        ci.targetOperandAddressingType = .DIRECT_REGISTER_ADDR →
      ic_promoter ci = 2 ∧
      (second_pass_command ci tu).2.codeImage.length =
        tu.codeImage.length + 2) ∧
    (¬(ci.sourceOperandAddressingType = .DIRECT_REGISTER_ADDR ∧
        ci.targetOperandAddressingType = .DIRECT_REGISTER_ADDR) →
      ic_promoter ci =
        1 + spec_operand_words ci.sourceOperandAddressingType +
          spec_operand_words ci.targetOperandAddressingType ∧
      ((second_pass_command ci tu).1 = false →
        (second_pass_command ci tu).2.codeImage.length =
          tu.codeImage.length + ic_promoter ci)) := by
  constructor
  · intro hd
    constructor
    · unfold ic_promoter
      rw [if_pos hd]
    · unfold second_pass_command
      rw [if_pos hd]
      simp only [double_direct_register_encoding, insert_machine_word_length,
        firs_machine_word_length]
  · intro hd
    have hsize : ic_promoter ci =
        1 + spec_operand_words ci.sourceOperandAddressingType +
          spec_operand_words ci.targetOperandAddressingType := by
      unfold ic_promoter
      rw [if_neg hd]
      cases ci.sourceOperandAddressingType <;>
        cases ci.targetOperandAddressingType <;> rfl
    refine ⟨hsize, ?_⟩
    intro he
    unfold second_pass_command at he ⊢
    rw [if_neg hd] at he ⊢
    rcases hp1 : process_operand_encoding ci
        (firs_machine_word_encoding ci tu)
        ci.sourceOperandAddressingType .SOURCE_OPERAND with ⟨e1, tu2⟩
    rcases hp2 : process_operand_encoding ci tu2
        ci.targetOperandAddressingType .TARGET_OPERAND with ⟨e2, tu3⟩
    simp only [hp1, hp2] at he ⊢
    have he12 : e1 = false ∧ e2 = false := by
      constructor <;> simp_all
    have l1 := process_operand_length ci (firs_machine_word_encoding ci tu)
      ci.sourceOperandAddressingType .SOURCE_OPERAND
      (by rw [hp1]; exact he12.1)
    rw [hp1] at l1
    have l2 := process_operand_length ci tu2
      ci.targetOperandAddressingType .TARGET_OPERAND
      (by rw [hp2]; exact he12.2)
    rw [hp2] at l2
    rw [l2, l1, firs_machine_word_length, hsize]
    omega

/-- Witness: the size agreement instantiated on `mov r1, r2` (two-register
special case) and on `mov X, r1` over the extern `X` (general formula with
an error-free emission). -/
theorem instruction_size_agreement_witness :
    (let movRR : CommandInstruction :=
      ⟨.MOV_OP, 2, .register 1, .register 2, .DIRECT_REGISTER_ADDR,
        .DIRECT_REGISTER_ADDR⟩
    ic_promoter movRR = 2 ∧
      (second_pass_command movRR c5Unit).2.codeImage.length =
        c5Unit.codeImage.length + 2) ∧
    (let movXR : CommandInstruction :=
      ⟨.MOV_OP, 2, .label "X", .register 1, .DIRECT_ADDR,
        .DIRECT_REGISTER_ADDR⟩
    ic_promoter movXR =
      1 + spec_operand_words .DIRECT_ADDR +
        spec_operand_words .DIRECT_REGISTER_ADDR ∧
      ((second_pass_command movXR c5Unit).1 = false →
        (second_pass_command movXR c5Unit).2.codeImage.length =
          c5Unit.codeImage.length + ic_promoter movXR)) :=
  ⟨(instruction_size_agreement _ c5Unit).1 (by exact ⟨rfl, rfl⟩),
    (instruction_size_agreement _ c5Unit).2 (by
      intro h
      cases h.1)⟩

/-! ### Claim C7: the opcode legality table -/

/-- The allowed source addressing modes, written from the specification's
table: `mov`, `cmp`, `add`, `sub` allow {0,1,2,3}, `lea` allows {1,2}, and
every other opcode takes no source operand (empty set). -/
def spec_allowed_source : Opcode → List AddressingType
  | .MOV_OP | .CMP_OP | .ADD_OP | .SUB_OP =>
      [.IMMEDIATE_ADDR, .DIRECT_ADDR, .FIXED_IDX_ADDR, .DIRECT_REGISTER_ADDR]
  | .LEA_OP => [.DIRECT_ADDR, .FIXED_IDX_ADDR]
  | _ => []

/-- The allowed target addressing modes, written from the specification's
table: `cmp` and `prn` allow {0,1,2,3}; `mov`, `add`, `sub`, `lea`, `not`,
`clr`, `inc`, `dec`, `red` allow {1,2,3}; `jmp`, `bne`, `jsr` allow {1,3};
`rts` and `hlt` take no target operand. -/
def spec_allowed_target : Opcode → List AddressingType
  | .CMP_OP | .PRN_OP =>
      [.IMMEDIATE_ADDR, .DIRECT_ADDR, .FIXED_IDX_ADDR, .DIRECT_REGISTER_ADDR]
  | .MOV_OP | .ADD_OP | .SUB_OP | .LEA_OP | .NOT_OP | .CLR_OP | .INC_OP
  | .DEC_OP | .RED_OP =>
      [.DIRECT_ADDR, .FIXED_IDX_ADDR, .DIRECT_REGISTER_ADDR]
  | .JMP_OP | .BNE_OP | .JSR_OP => [.DIRECT_ADDR, .DIRECT_REGISTER_ADDR]
  | .RTS_OP | .HLT_OP => []

/-- The legality predicate as the specification states it: each operand
position's mode must belong to the opcode's allowed set, an absent operand
being required (mode `NONE_ADDR`) where the table lists no modes. -/
def spec_legal_command (op : Opcode) (src tgt : AddressingType) : Bool :=
  (if (spec_allowed_source op).isEmpty then decide (src = .NONE_ADDR)
    else (spec_allowed_source op).contains src) &&
  (if (spec_allowed_target op).isEmpty then decide (tgt = .NONE_ADDR)
    else (spec_allowed_target op).contains tgt)

/-- C7: the first pass's `is_legal_command` agrees exactly with the
specification's opcode legality table on every opcode and every pair of
operand addressing modes. -/
theorem is_legal_command_matches_table (ci : CommandInstruction) :
    is_legal_command ci =
      spec_legal_command ci.opcodeCommand ci.sourceOperandAddressingType
        ci.targetOperandAddressingType := by
  obtain ⟨op, n, so, t2, st, tt⟩ := ci
  have hred : is_legal_command ⟨op, n, so, t2, st, tt⟩ =
      is_legal_command ⟨op, 0, uninitOperand, uninitOperand, st, tt⟩ := rfl
  rw [hred]
  clear hred
  dsimp only
  clear n so t2
  revert op st tt
  decide

/-! ### Claim C1: the symbol inserted for a `.extern` directive -/

/-- C1 counterexample: running the first pass over the single line
`.extern X` (name not previously in the table) inserts the symbol with kind
`EXTERN_LABEL` but with address 100 — the current `ic` — not 0. -/
theorem extern_symbol_address_counterexample :
    ((first_pass [⟨none, none, .directiveExtern "X"⟩]
        emptyTranslationUnit).2.symbolTable.map
      (fun s => (s.symbolType, s.address)) =
      [(SymbolType.EXTERN_LABEL, 100)]) ∧
    ((100 : Int) ≠ 0) := by
  constructor
  · decide
  · decide

/-- C1 amended: processing a `.extern NAME` line whose name is not already
in the symbol table appends a symbol of kind `EXTERN_LABEL` whose address
field is the first pass's current `ic` value (not 0; the 0 address for
externs is substituted later, at use-site encoding). -/
theorem extern_directive_inserts_ic (name : String) (st : FirstPassState)
    (hnew : find_symbol name st.translationUnit.symbolTable = none) :
    (first_pass_line ⟨none, none, .directiveExtern name⟩
        st).translationUnit.symbolTable =
      st.translationUnit.symbolTable ++
        [⟨name.take 31, .EXTERN_LABEL, (st.ic : Int)⟩] := by
  simp only [first_pass_line, first_pass_after_label, Option.getD_none,
    ne_eq, not_true_eq_false, LineContent.entryName]
  rw [if_neg (by simp)]
  simp only [LineContent.entryName, hnew]
  simp [insert_symbol_to_table, LineContent.entryName]

/-- Witness: the amended C1 statement applied to the empty symbol table at
the initial `ic = 100`. -/
theorem extern_directive_inserts_ic_witness :
    find_symbol "X" (FirstPassState.mk emptyTranslationUnit 100 0
        false).translationUnit.symbolTable = none ∧
    (first_pass_line ⟨none, none, .directiveExtern "X"⟩
        (FirstPassState.mk emptyTranslationUnit 100 0
          false)).translationUnit.symbolTable =
      (FirstPassState.mk emptyTranslationUnit 100 0
          false).translationUnit.symbolTable ++
        [⟨"X".take 31, .EXTERN_LABEL, (100 : Int)⟩] :=
  ⟨rfl, extern_directive_inserts_ic "X" _ rfl⟩

/-! ### Claim C2: which values the second pass range-checks -/

/-- A translation unit with one data label and one constant of value 3000,
used to exercise fixed-index encoding. -/
def c2Unit : TranslationUnit :=
  { emptyTranslationUnit with
      symbolTable := [⟨"L", .DATA_LABEL, 150⟩],
      constantList := [⟨"k", 3000⟩] }

/-- C2 counterexample: the fixed-index operand `L[k]` with `k = 3000`
encodes without error although 3000 is outside `[-2048, 2047]`; the
claimed equivalence "encoding succeeds iff -2048 ≤ v ≤ 2047" fails for
index values. -/
theorem index_overflow_accepted_counterexample :
    extract_constant "k" c2Unit = some 3000 ∧
    (encode_fixed_index_addressing ⟨"L", .constant "k"⟩ c2Unit).1 = false ∧
    ¬((3000 : Int) ≤ 2047) := by
  refine ⟨by decide, by decide, by decide⟩

theorem find_label_addressing_constantList (lbl : String)
    (tu : TranslationUnit) :
    (find_label_addressing lbl tu).2.constantList = tu.constantList := by
  unfold find_label_addressing updateExternTable
  cases tu.symbolTable.find? (fun s => s.symbolName == lbl)
  · rfl
  · dsimp only
    split <;> rfl

theorem extract_constant_congr (c : String) (tu1 tu2 : TranslationUnit)
    (h : tu1.constantList = tu2.constantList) :
    extract_constant c tu1 = extract_constant c tu2 := by
  unfold extract_constant
  rw [h]

/-- C2 amended: the 12-bit two's-complement range check applies to
immediate values only — an immediate (literal or resolved constant)
encodes iff it lies in `[-2048, 2047]`; a fixed-index index value is not
range-checked upward: a numerical index always encodes, and a constant
index (with the base label resolvable) encodes iff the constant is defined
and nonnegative, so a negative constant index is an error but values above
2047 encode successfully. -/
theorem second_pass_range_checks :
    (∀ (v : Int) (tu : TranslationUnit),
      ((encode_immediate_addressing (.integerVal v) tu).1 = false ↔
        (-2048 ≤ v ∧ v ≤ 2047))) ∧
    (∀ (name : String) (v : Int) (tu : TranslationUnit),
      extract_constant name tu = some v →
      ((encode_immediate_addressing (.constantVal name) tu).1 = false ↔
        (-2048 ≤ v ∧ v ≤ 2047))) ∧
    (∀ (f : FixedIndexAddressing) (tu : TranslationUnit) (p : Nat × ARE)
        (tu1 : TranslationUnit),
      find_label_addressing f.labelName tu = (some p, tu1) →
      ((∀ n : Int, f.index = .numerical n →
          (encode_fixed_index_addressing f tu).1 = false) ∧
        (∀ (c : String) (t : Int), f.index = .constant c →
          extract_constant c tu = some t →
          ((encode_fixed_index_addressing f tu).1 = false ↔ 0 ≤ t)))) := by
  refine ⟨?_, ?_, ?_⟩
  · intro v tu
    by_cases hv : two_complement_validation v <;>
      simp only [encode_immediate_addressing, hv, ite_true, ite_false] <;>
      unfold two_complement_validation at hv <;>
      simp only [Bool.not_eq_true', Bool.not_eq_false,
        Bool.or_eq_true, Bool.or_eq_false_iff, decide_eq_true_eq,
        decide_eq_false_iff_not] at hv <;>
      constructor <;> intro h <;> first | omega | rfl | simp_all
  · intro name v tu hc
    by_cases hv : two_complement_validation v <;>
      simp only [encode_immediate_addressing, hc, hv, ite_true, ite_false] <;>
      unfold two_complement_validation at hv <;>
      simp only [Bool.not_eq_true', Bool.not_eq_false,
        Bool.or_eq_true, Bool.or_eq_false_iff, decide_eq_true_eq,
        decide_eq_false_iff_not] at hv <;>
      constructor <;> intro h <;> first | omega | rfl | simp_all
  · intro f tu p tu1 hfind
    have hconst : tu1.constantList = tu.constantList := by
      have := find_label_addressing_constantList f.labelName tu
      rw [hfind] at this
      exact this
    constructor
    · intro n hn
      unfold encode_fixed_index_addressing
      rw [hfind]
      rcases p with ⟨addr, are⟩
      simp only [get_addressing_index, hn]
    · intro c t hcIdx hct
      have hct1 : extract_constant c tu1 = some t := by
        rw [extract_constant_congr c tu1 tu hconst]
        exact hct
      unfold encode_fixed_index_addressing
      rw [hfind]
      rcases p with ⟨addr, are⟩
      simp only [get_addressing_index, hcIdx, hct1]
      by_cases ht : t < 0
      · simp only [ht, ite_true]
        constructor
        · intro h; cases h
        · intro h; omega
      · simp only [ht, ite_false]
        constructor
        · intro _; omega
        · intro _; trivial

/-- Witness: the range-check characterization applied to the immediate 5
and to the fixed-index operand `L[k]` of `c2Unit`. -/
theorem second_pass_range_checks_witness :
    ((encode_immediate_addressing (.integerVal 5)
        emptyTranslationUnit).1 = false ↔
      (-2048 ≤ (5 : Int) ∧ (5 : Int) ≤ 2047)) ∧
    ((encode_fixed_index_addressing ⟨"L", .constant "k"⟩ c2Unit).1 = false ↔
      0 ≤ (3000 : Int)) :=
  ⟨second_pass_range_checks.1 5 emptyTranslationUnit,
    (second_pass_range_checks.2.2 ⟨"L", .constant "k"⟩ c2Unit
        (150, .RELOCATABLE) c2Unit (by decide)).2 "k" 3000 rfl (by decide)⟩

/-! ### Claim C4: width of the image words -/

/-- C4 counterexample: encoding the immediate `-1` appends the 32-bit
two's-complement word 4294967292 to the code image, and `.data -5` appends
4294967291 to the data image; neither fits in 14 bits. -/
theorem word_width_counterexample :
    (encode_immediate_addressing (.integerVal (-1))
        emptyTranslationUnit).2.codeImage = [4294967292] ∧
    ¬(4294967292 < 16384) ∧
    (int_data_image_update [-5] emptyTranslationUnit 0).1.dataImage =
      [4294967291] ∧
    ¬(4294967291 < 16384) := by
  refine ⟨by decide, by decide, by decide, by decide⟩

/-- C4 amended: image words are stored as C `unsigned int` values reduced
modulo `2^32`, not 14-bit integers.  A validated immediate `v` is encoded
as `u32 (v * 4)`, which fits in 14 bits exactly when `v` is nonnegative;
`.data` elements are appended as `u32` values, and a negative element in
`(-(2^32 - 2^14), 0)` always yields a word of 14 or more bits. -/
theorem image_words_are_32_bit :
    (∀ (tu : TranslationUnit) (w : Nat),
      (insert_machine_word tu w).codeImage =
        tu.codeImage ++ [w % 4294967296]) ∧
    (∀ (v : Int) (tu : TranslationUnit),
      two_complement_validation v = true →
      (encode_immediate_addressing (.integerVal v) tu).2.codeImage =
        tu.codeImage ++ [u32 (v * 4)] ∧
      (u32 (v * 4) < 16384 ↔ 0 ≤ v)) ∧
    (∀ (data : List Int) (tu : TranslationUnit) (dc : Nat),
      (int_data_image_update data tu dc).1.dataImage =
        tu.dataImage ++ data.map u32 ∧
      ∀ d ∈ data, -4294950912 < d → d < 0 → ¬(u32 d < 16384)) := by
  refine ⟨?_, ?_, ?_⟩
  · intro tu w
    rfl
  · intro v tu hv
    unfold two_complement_validation at hv
    simp only [Bool.not_eq_true', Bool.or_eq_false_iff,
      decide_eq_false_iff_not] at hv
    have hv' : two_complement_validation v = true := by
      unfold two_complement_validation
      simp only [Bool.not_eq_true', Bool.or_eq_false_iff,
        decide_eq_false_iff_not]
      exact hv
    constructor
    · simp only [encode_immediate_addressing, hv', ite_true,
        insert_machine_word]
      have hmod : u32 (v * 4) % 4294967296 = u32 (v * 4) :=
        Nat.mod_eq_of_lt (by unfold u32; omega)
      rw [hmod]
    · unfold u32
      omega
  · intro data tu dc
    refine ⟨rfl, ?_⟩
    intro d _ h1 h2
    unfold u32
    omega

/-- Witness: the 32-bit characterization applied to the immediate `-1`
(whose word does not fit in 14 bits) and to the data element `-5`. -/
theorem image_words_are_32_bit_witness :
    ((encode_immediate_addressing (.integerVal (-1))
        emptyTranslationUnit).2.codeImage =
      emptyTranslationUnit.codeImage ++ [u32 ((-1) * 4)] ∧
      (u32 ((-1) * 4) < 16384 ↔ 0 ≤ (-1 : Int))) ∧
    ¬(u32 (-5) < 16384) :=
  ⟨image_words_are_32_bit.2.1 (-1) emptyTranslationUnit (by decide),
    (image_words_are_32_bit.2.2 [-5] emptyTranslationUnit 0).2 (-5)
      (by decide) (by decide) (by decide)⟩

/-! ### Claim C9: the bare `.data` element `0` -/

/-- C9 counterexample: `.data 0` is accepted — the live extraction path
yields the value list `[0]`, and even the unused validator
`is_valid_data_directive` accepts the bare string `"0"` (its octal guard
needs a second character). -/
theorem data_zero_rejected_counterexample :
    data_directive_handling emptyTranslationUnit ['0', '\n'] = .ok [0] ∧
    is_valid_data_directive ['0'] = true := by
  refine ⟨rfl, by decide⟩

theorem data_directive_value_extraction_congr
    (tu1 tu2 : TranslationUnit) (h : tu1.constantList = tu2.constantList)
    (line : List Char) :
    data_directive_value_extraction tu1 line =
      data_directive_value_extraction tu2 line := by
  unfold data_directive_value_extraction
  rw [h]

theorem data_directive_loop_congr (tu1 tu2 : TranslationUnit)
    (h : tu1.constantList = tu2.constantList) (fuel : Nat)
    (line : List Char) (data : List Int) :
    data_directive_loop tu1 fuel line data =
      data_directive_loop tu2 fuel line data := by
  induction fuel generalizing line data with
  | zero => rfl
  | succ n ih =>
    cases line with
    | nil => rfl
    | cons c cs =>
      unfold data_directive_loop
      rw [data_directive_value_extraction_congr tu1 tu2 h]
      cases data_directive_value_extraction tu2 (c :: cs) with
      | none => rfl
      | some v =>
        dsimp only
        exact ih _ _

theorem data_directive_handling_congr (tu1 tu2 : TranslationUnit)
    (h : tu1.constantList = tu2.constantList) (line : List Char) :
    data_directive_handling tu1 line = data_directive_handling tu2 line := by
  unfold data_directive_handling
  simp only [data_directive_loop_congr tu1 tu2 h]

/-- C9 amended: the `.data` element `0` is accepted, not rejected.  For any
translation unit with no constants, processing the element list `0` yields
the value list `[0]`; `extract_integer` parses `"0"` as the integer 0; and
the (dead-code) validator accepts the bare `"0"` — its possibly-octal
guard only rejects a `0` followed by another digit, such as `"07"`. -/
theorem data_zero_accepted (tu : TranslationUnit)
    (h : tu.constantList = []) :
    data_directive_handling tu ['0', '\n'] = .ok [0] ∧
    extract_integer ['0'] = some 0 ∧
    is_valid_data_directive ['0'] = true ∧
    is_valid_data_directive ['0', '7'] = false := by
  refine ⟨?_, by decide, by decide, by decide⟩
  rw [data_directive_handling_congr tu emptyTranslationUnit
    (by rw [h]; rfl)]
  rfl

/-- Witness: the acceptance of `.data 0` at the empty translation unit. -/
theorem data_zero_accepted_witness :
    data_directive_handling emptyTranslationUnit ['0', '\n'] = .ok [0] ∧
    extract_integer ['0'] = some 0 ∧
    is_valid_data_directive ['0'] = true ∧
    is_valid_data_directive ['0', '7'] = false :=
  data_zero_accepted emptyTranslationUnit rfl

/-! ### Claim C10: extern-use records survive a failed fixed-index encoding -/

/-- A translation unit with a single extern symbol `X` and no constants. -/
def c10Unit : TranslationUnit :=
  { emptyTranslationUnit with
      symbolTable := [⟨"X", .EXTERN_LABEL, 100⟩] }

/-- C10: when the base label of a fixed-index operand resolves to an
`EXTERN_LABEL` but the index lookup fails, the encoding reports an error
and emits no machine word, yet the extern-use record for the base label —
appended by `find_label_addressing` before the index is examined — remains
in the externals list. -/
theorem fixed_index_extern_error_not_atomic
    (f : FixedIndexAddressing) (tu : TranslationUnit) (s : Symbol)
    (hfind : tu.symbolTable.find?
      (fun x => x.symbolName == f.labelName) = some s)
    (hext : s.symbolType = .EXTERN_LABEL)
    (hidx : get_addressing_index f (updateExternTable tu f.labelName) =
      none) :
    encode_fixed_index_addressing f tu =
      (true, updateExternTable tu f.labelName) ∧
    (updateExternTable tu f.labelName).codeImage = tu.codeImage ∧
    (updateExternTable tu f.labelName).externalsList =
      tu.externalsList ++ [⟨f.labelName, (tu.IC : Int)⟩] := by
  refine ⟨?_, rfl, rfl⟩
  unfold encode_fixed_index_addressing find_label_addressing
  rw [hfind]
  simp [hext, hidx]

/-- Witness: the operand `X[u]` with `X` extern and `u` an undefined
constant leaves an extern-use record behind. -/
theorem fixed_index_extern_error_not_atomic_witness :
    encode_fixed_index_addressing ⟨"X", .constant "u"⟩ c10Unit =
      (true, updateExternTable c10Unit "X") ∧
    (updateExternTable c10Unit "X").codeImage = c10Unit.codeImage ∧
    (updateExternTable c10Unit "X").externalsList =
      c10Unit.externalsList ++ [⟨"X", (c10Unit.IC : Int)⟩] :=
  fixed_index_extern_error_not_atomic ⟨"X", .constant "u"⟩ c10Unit
    ⟨"X", .EXTERN_LABEL, 100⟩ rfl rfl rfl

/-! ### Claim C3: the object file produced for the single line `hlt` -/

/-- The abstract line descriptor parsed from the source line `hlt`. -/
def hltDescriptor : AbstractLineDescriptor :=
  handle_no_operands_opcode "hlt\n".toList ⟨none, none, .initVal⟩

/-- The `progSize` counter of the parsing driver: it starts at 0 and is
incremented once per input line except the first (`if (lineCount > 1)
abstractProgram->progSize++`), so after reading `n` lines it holds
`n - 1` even though `n` lines were stored at indices `0 .. n-1`. -/
def progSize (lines : List AbstractLineDescriptor) : Nat :=
  lines.length - 1

/-- The slice of the parsed program the second pass visits: its loop runs
`lineNumber` from 0 while `lineNumber < progSize`, so the last stored line
is never reached. -/
def secondPassLines (lines : List AbstractLineDescriptor) :
    List AbstractLineDescriptor :=
  lines.take (progSize lines)

/-- The output files of the whole pipeline (first pass over every parsed
line, second pass over the `progSize`-truncated slice, file generation) on
the one-line program `hlt`. -/
def hltOutputs : List String × Option (List String) × Option (List String) :=
  generate_files
    (second_pass (secondPassLines [hltDescriptor])
      (first_pass [hltDescriptor] emptyTranslationUnit).2).2

/-- The same pipeline on the two-line program `hlt` / `hlt`, whose
truncated second-pass slice is the single `hlt` line. -/
def hltOutputs2 :
    List String × Option (List String) × Option (List String) :=
  generate_files
    (second_pass (secondPassLines [hltDescriptor, hltDescriptor])
      (first_pass [hltDescriptor, hltDescriptor] emptyTranslationUnit).2).2

/-- C3 counterexample: for the single-line input `hlt` the first pass
succeeds, but the driver hands the second pass `progSize = 0` lines — the
off-by-one `lineCount > 1` guard makes the second pass skip the file's
last line — so nothing is encoded and the object file is the bare header
`"  0 0"`: neither the claimed header `"  1 0"` nor a body line
`0100 !!!!!!!` (nor any body line at all) is produced. -/
theorem hlt_object_file_counterexample :
    (first_pass [hltDescriptor] emptyTranslationUnit).1 = true ∧
    secondPassLines [hltDescriptor] = [] ∧
    hltOutputs = (["  0 0"], none, none) ∧
    ["  0 0"] ≠ ["  1 0", "0100 !!!!!!!"] := by
  refine ⟨rfl, rfl, rfl, by decide⟩

/-- C3 amended: the second pass only visits the first `n - 1` of `n`
parsed lines, so the one-line `hlt` program yields the object file
`"  0 0"` with no body and no `.ent`/`.ext` files.  When an `hlt` line is
actually encoded (here: the two-line `hlt` / `hlt` program, whose
truncated slice holds one line), its word is `15 <<< 6 = 960`, printed as
the glyphs `**!!***` (base-4 digits `0033000`), giving the object file
`"  1 0"` / `"0100 **!!***"` — not the claimed `!!!!!!!`, which would be
the word `0x3FFF`. -/
theorem hlt_object_file :
    hltOutputs = (["  0 0"], none, none) ∧
    (firs_machine_word_encoding
        ⟨.HLT_OP, 0, uninitOperand, uninitOperand, .NONE_ADDR, .NONE_ADDR⟩
        emptyTranslationUnit).codeImage = [960] ∧
    print_encoded_base4_machine_word 960 = "**!!***" ∧
    hltOutputs2 = (["  1 0", "0100 **!!***"], none, none) := by
  refine ⟨rfl, rfl, rfl, rfl⟩

end Assembler
